import Mathlib

/-!
Verification of the cursor-based pagination subsystem and the structured
response envelope builder of the garmin-connect-mcp server.

The cursor codec and pagination-info builder (module
`garmin_connect_mcp/pagination.py`) are not part of the provided sources;
only their tests and callers are.  They are modelled here from the spec,
as indicated by the doc comments of the corresponding definitions.  The
response builder (`response_builder.py`), the paginated orchestrators
(`tools/activities.py`, `tools/health_wellness.py`) and the client error
wrapper (`client.py`) are embedded from the source.
-/

namespace GarminMcp

/-! ### Decimal digit rendering and reading

Helper layer for the textual cursor token: canonical decimal renderings of
natural numbers and their (leading-zero rejecting) reader. -/
def digitChar10 (d : Nat) : Char := Char.ofNat (48 + d)

def charVal10 (c : Char) : Nat := c.toNat - 48

def isDigit10 (c : Char) : Bool := decide (48 ≤ c.toNat ∧ c.toNat ≤ 57)

/-- Fuelled digit renderer (structural recursion, so that concrete tokens
evaluate by kernel reduction). -/
def natCharsAux : Nat → Nat → List Char
  | 0, _ => []
  | fuel + 1, n =>
    if n = 0 then [] else natCharsAux fuel (n / 10) ++ [digitChar10 (n % 10)]

/-- Canonical decimal rendering of a natural number (most significant digit
first, no leading zeros, `0` rendered as `"0"`). -/
def natChars (n : Nat) : List Char :=
  if n = 0 then ['0'] else natCharsAux n n

/-- Read a canonical decimal number from the front of a character list.
Fails when there is no leading digit or when the digit run has a leading
zero (so that exactly the strings produced by `natChars` are accepted). -/
def readNat (cs : List Char) : Option (Nat × List Char) :=
  let ds := cs.takeWhile isDigit10
  let rest := cs.dropWhile isDigit10
  if ds = [] then none
  else if ds.head? = some '0' ∧ ds ≠ ['0'] then none
  else some (Nat.ofDigits 10 ((ds.map charVal10).reverse), rest)

/-! ### Length-prefixed strings and filter pair lists

The filter snapshot carried by a cursor is a list of string key/value
pairs.  Each string is serialized length-prefixed (so arbitrary content
round-trips without escaping), and the pairs are concatenated. -/
def netChars (s : List Char) : List Char := natChars s.length ++ ':' :: s

/-- Read one length-prefixed string from the front of a character list. -/
def readNet (cs : List Char) : Option (List Char × List Char) :=
  match readNat cs with
  | none => none
  | some (n, rest) =>
    match rest with
    | ':' :: body =>
      if n ≤ body.length then some (body.take n, body.drop n) else none
    | _ => none

/-- Serialization of a filter pair list: the concatenation of the
length-prefixed key and value of each pair in order. -/
def pairsChars (fs : List (String × String)) : List Char :=
  match fs with
  | [] => []
  | (k, v) :: tl => netChars k.data ++ netChars v.data ++ pairsChars tl

/-- Fuelled reader for a serialized filter pair list; consumes the whole
input. -/
def readPairs : Nat → List Char → Option (List (String × String))
  | _, [] => some []
  | 0, _ :: _ => none
  | fuel + 1, c :: cs =>
    match readNet (c :: cs) with
    | none => none
    | some (k, rest1) =>
      match readNet rest1 with
      | none => none
      | some (v, rest2) =>
        match readPairs fuel rest2 with
        | none => none
        | some tl => some ((String.mk k, String.mk v) :: tl)

/-! ### Cursor codec

Modelled from the spec: `pagination.py` is not among the provided sources
(only its tests and callers are).  Per the spec the codec is a "reversible
text encoding of a canonical structured record" carrying a page number and
an optional filter mapping; decode fails with `InvalidCursor` when the
token is not syntactically valid, cannot be reversed to a structured
record, or the record lacks a page field, and never raises for absent
filters.  The concrete token grammar chosen here is `P<page>` optionally
followed by `F<pairs>` with length-prefixed pair entries. -/
/-- Decoded pagination cursor record: a 1-based page number and an optional
filter snapshot. -/
structure PaginationCursor where
  page : Nat
  filters : Option (List (String × String))
deriving DecidableEq, Repr

/-- Error raised by the cursor codec on any undecodable token; callers
observe it as a `ValueError` matching "Invalid pagination cursor". -/
inductive CursorError where
  | invalidCursor
deriving DecidableEq, Repr

/-- Serialized filters component of a token: empty when no filters were
supplied, otherwise an `F` marker followed by the serialized pairs. -/
def filtersChars (filters : Option (List (String × String))) : List Char :=
  match filters with
  | none => []
  | some fs => 'F' :: pairsChars fs

/-- Modelled from the spec: `encode_cursor(page, filters=None)` from the
missing `pagination.py` serializes the `(page, filters)` record into a
self-describing opaque token; filters present at encode time are carried
verbatim. -/
def encode_cursor (page : Nat) (filters : Option (List (String × String))) :
    String :=
  String.mk ('P' :: (natChars page ++ filtersChars filters))

/-- Page-number reader used after the `P` marker. -/
def decodePageArm (cs : List Char) : Option (Option Nat × List Char) :=
  match readNat cs with
  | none => none
  | some (n, r) => some (some n, r)

/-- Parse the optional page component of a cursor token. -/
def decodePagePart (cs : List Char) : Option (Option Nat × List Char) :=
  match cs with
  | [] => some (none, [])
  | c :: rest => if c = 'P' then decodePageArm rest else some (none, c :: rest)

/-- Filter-pairs reader used after the `F` marker. -/
def decodeFiltersArm (cs : List Char) : Option (Option (List (String × String))) :=
  match readPairs cs.length cs with
  | none => none
  | some fs => some (some fs)

/-- Parse the optional filters component of a cursor token; must consume
the entire remainder. -/
def decodeFiltersPart (cs : List Char) : Option (Option (List (String × String))) :=
  match cs with
  | [] => some none
  | c :: rest => if c = 'F' then decodeFiltersArm rest else none

/-- Final assembly of a decoded record: a record lacking the page field is
rejected. -/
def finishDecode (pageOpt : Option Nat)
    (filtersOpt : Option (List (String × String))) :
    Except CursorError PaginationCursor :=
  match pageOpt with
  | none => .error .invalidCursor
  | some p => .ok { page := p, filters := filtersOpt }

/-- Kernel of the cursor decoder, over the character list of the token. -/
def decodeCursorChars (cs : List Char) : Except CursorError PaginationCursor :=
  match decodePagePart cs with
  | none => .error .invalidCursor
  | some (pageOpt, rest) =>
    match decodeFiltersPart rest with
    | none => .error .invalidCursor
    | some filtersOpt => finishDecode pageOpt filtersOpt

/-- Modelled from the spec: `decode_cursor(token)` from the missing
`pagination.py` reverses `encode_cursor`; it fails with `InvalidCursor`
when the token is not syntactically valid, cannot be reversed to a
structured record, or the record lacks a page field, and resolves absent
filters to none without error. -/
def decode_cursor (token : String) : Except CursorError PaginationCursor :=
  decodeCursorChars token.data

instance {ε α : Type} [DecidableEq ε] [DecidableEq α] : DecidableEq (Except ε α) :=
  fun a b =>
    match a, b with
    | .ok x, .ok y =>
      match decEq x y with
      | isTrue h => isTrue (by rw [h])
      | isFalse h => isFalse (by intro hc; injection hc; contradiction)
    | .error x, .error y =>
      match decEq x y with
      | isTrue h => isTrue (by rw [h])
      | isFalse h => isFalse (by intro hc; injection hc; contradiction)
    | .ok _, .error _ => isFalse (by intro hc; injection hc)
    | .error _, .ok _ => isFalse (by intro hc; injection hc)

/-! ### Pagination info builder (spec-modelled) -/
/-- Pagination block embedded in a paginated response. -/
structure PaginationInfo where
  cursor : Option String
  has_more : Bool
  limit : Int
  returned : Nat
deriving DecidableEq, Repr

/-- Modelled from the spec: `build_pagination_info(returned_count, limit,
current_page, has_more, filters)` from the missing `pagination.py`.  When
`has_more` is true the cursor encodes `current_page + 1` with the supplied
filters; when false the cursor is none; `limit` and `returned_count` pass
through unchanged. -/
def build_pagination_info (returned_count : Nat) (limit : Int) (current_page : Nat)
    (has_more : Bool) (filters : Option (List (String × String))) : PaginationInfo :=
  { cursor := if has_more then some (encode_cursor (current_page + 1) filters) else none
    has_more := has_more
    limit := limit
    returned := returned_count }

/-! ### Python value model and the response envelope builder

Embedding of `response_builder.py`: a model of the JSON-compatible Python
values the builder walks (None, bools, ints, strings, datetimes, lists,
dicts with string or int keys), the recursive `_convert_datetimes` walk,
and the envelope assembly of `build_response` / `build_error_response` up
to (but not including) the final `json.dumps` serialization step. -/
/-- Naive Python `datetime` (microsecond zero), as produced by the values
the builder converts; `datetime.now(UTC)` is modelled by its UTC field
values. -/
structure PyDateTime where
  year : Nat
  month : Nat
  day : Nat
  hour : Nat
  minute : Nat
  second : Nat
deriving DecidableEq, Repr

def pad2Chars (n : Nat) : List Char := [digitChar10 (n / 10), digitChar10 (n % 10)]

def pad4Chars (n : Nat) : List Char :=
  [digitChar10 (n / 1000), digitChar10 (n / 100 % 10),
   digitChar10 (n / 10 % 10), digitChar10 (n % 10)]

/-- Character form of Python `datetime.isoformat()` for a naive datetime
with zero microseconds: `YYYY-MM-DDTHH:MM:SS`. -/
def PyDateTime.isoChars (d : PyDateTime) : List Char :=
  pad4Chars d.year ++ '-' :: pad2Chars d.month ++ '-' :: pad2Chars d.day
    ++ 'T' :: pad2Chars d.hour ++ ':' :: pad2Chars d.minute ++ ':' :: pad2Chars d.second

def PyDateTime.isoformat (d : PyDateTime) : String := String.mk d.isoChars

/-- Dictionary keys occurring in the payloads: strings or ints; `str(k)`
is the coercion `_convert_datetimes` applies. -/
inductive PyKey where
  | kstr (s : String)
  | kint (n : Int)
deriving DecidableEq, Repr

def PyKey.pyStr : PyKey → String
  | .kstr s => s
  | .kint n => toString n

mutual
/-- JSON-compatible Python value (acyclic by construction, matching the
builder's documented domain). -/
inductive PyVal where
  | vnone
  | vbool (b : Bool)
  | vint (n : Int)
  | vstr (s : String)
  | vdt (d : PyDateTime)
  | vlist (xs : PyList)
  | vdict (es : PyDict)
deriving DecidableEq, Repr
/-- Python list of values. -/
inductive PyList where
  | nil
  | cons (hd : PyVal) (tl : PyList)
deriving DecidableEq, Repr
/-- Python dict as an ordered entry list. -/
inductive PyDict where
  | nil
  | cons (k : PyKey) (v : PyVal) (tl : PyDict)
deriving DecidableEq, Repr
end

mutual
/-- Embeds `_convert_datetimes` (response_builder.py): datetimes become
their ISO strings, dicts are rebuilt with `str`-coerced keys and converted
values, lists element-wise, all other values pass through. -/
def convertDatetimes : PyVal → PyVal
  | .vdt d => .vstr d.isoformat
  | .vdict es => .vdict (convertDict es)
  | .vlist xs => .vlist (convertList xs)
  | .vnone => .vnone
  | .vbool b => .vbool b
  | .vint n => .vint n
  | .vstr s => .vstr s
/-- List part of the `_convert_datetimes` walk. -/
def convertList : PyList → PyList
  | .nil => .nil
  | .cons x xs => .cons (convertDatetimes x) (convertList xs)
/-- Dict part of the `_convert_datetimes` walk. -/
def convertDict : PyDict → PyDict
  | .nil => .nil
  | .cons k v es => .cons (.kstr k.pyStr) (convertDatetimes v) (convertDict es)
end

mutual
/-- Does a value contain a datetime node anywhere. -/
def hasDatetime : PyVal → Bool
  | .vdt _ => true
  | .vdict es => hasDatetimeDict es
  | .vlist xs => hasDatetimeList xs
  | _ => false
def hasDatetimeList : PyList → Bool
  | .nil => false
  | .cons x xs => hasDatetime x || hasDatetimeList xs
def hasDatetimeDict : PyDict → Bool
  | .nil => false
  | .cons _ v es => hasDatetime v || hasDatetimeDict es
end

mutual
/-- Specification-side description of the normalization walk, written from
the words of the spec: any date/time-valued node is rewritten to its
ISO-8601 string form, mapping keys are coerced to strings, lists are
walked element-wise, and all other scalar values pass through unchanged. -/
inductive IsNormalized : PyVal → PyVal → Prop where
  | dt (d : PyDateTime) : IsNormalized (.vdt d) (.vstr d.isoformat)
  | none_ : IsNormalized .vnone .vnone
  | bool (b : Bool) : IsNormalized (.vbool b) (.vbool b)
  | int (n : Int) : IsNormalized (.vint n) (.vint n)
  | str (s : String) : IsNormalized (.vstr s) (.vstr s)
  | list {xs ys : PyList} : IsNormalizedList xs ys →
      IsNormalized (.vlist xs) (.vlist ys)
  | dict {es fs : PyDict} : IsNormalizedDict es fs →
      IsNormalized (.vdict es) (.vdict fs)
/-- Element-wise normalization of a list. -/
inductive IsNormalizedList : PyList → PyList → Prop where
  | nil : IsNormalizedList .nil .nil
  | cons {v w : PyVal} {xs ys : PyList} : IsNormalized v w →
      IsNormalizedList xs ys → IsNormalizedList (.cons v xs) (.cons w ys)
/-- Entry-wise normalization of a dict, coercing each key to its string
form. -/
inductive IsNormalizedDict : PyDict → PyDict → Prop where
  | nil : IsNormalizedDict .nil .nil
  | cons (k : PyKey) {v w : PyVal} {es fs : PyDict} : IsNormalized v w →
      IsNormalizedDict es fs →
      IsNormalizedDict (.cons k v es) (.cons (.kstr k.pyStr) w fs)
end

/-- Lookup by string key in a dict whose keys may still be arbitrary. -/
def pyDictLookupStr : PyDict → String → Option PyVal
  | .nil, _ => none
  | .cons k v tl, key => if k = .kstr key then some v else pyDictLookupStr tl key

/-- Python dict assignment `d[key] = v` on an entry list: replace the
binding in place if the key is present, else append it. -/
def pyDictSet : PyDict → String → PyVal → PyDict
  | .nil, key, v => .cons (.kstr key) v .nil
  | .cons k w tl, key, v =>
    if k = .kstr key then .cons k v tl else .cons k w (pyDictSet tl key v)

/-- Python truthiness of a dict: true iff non-empty. -/
def pyDictTruthy : PyDict → Bool
  | .nil => false
  | .cons _ _ _ => true

/-- The pagination block as the dict value embedded in a response. -/
def pagToPyVal (p : PaginationInfo) : PyVal :=
  .vdict (.cons (.kstr "cursor")
      (match p.cursor with
       | none => .vnone
       | some c => .vstr c)
    (.cons (.kstr "has_more") (.vbool p.has_more)
      (.cons (.kstr "limit") (.vint p.limit)
        (.cons (.kstr "returned") (.vint (p.returned : Int)) .nil))))

/-- Timestamp injected by the builder: the code computes
`datetime.now(UTC).isoformat().replace("+00:00", "Z")`, and an aware UTC
isoformat is the naive isoformat followed by the single occurrence of
`+00:00`, so the result is the naive isoformat followed by `Z`. -/
def fetchedAtValue (now : PyDateTime) : String := String.mk (now.isoChars ++ ['Z'])

/-- Embeds `ResponseBuilder.build_response` (response_builder.py) up to the
final `json.dumps`: the top-level response dict it serializes, with the
system clock passed explicitly as `now`. -/
def buildResponseObj (data : PyVal) (analysis : Option PyDict)
    (metadata : Option PyDict) (pagination : Option PaginationInfo)
    (now : PyDateTime) : List (String × PyVal) :=
  let convertedData := convertDatetimes data
  let convertedAnalysis : Option PyDict :=
    match analysis with
    | none => none
    | some es => if pyDictTruthy es then some (convertDict es) else none
  let step1 : List (String × PyVal) := [("data", convertedData)]
  let step2 := step1 ++
    (match convertedAnalysis with
     | some es => if pyDictTruthy es then [("analysis", PyVal.vdict es)] else []
     | none => [])
  let step3 := step2 ++
    (match pagination with
     | some p => [("pagination", pagToPyVal p)]
     | none => [])
  let meta := metadata.getD .nil
  let convertedMeta :=
    pyDictSet (convertDict meta) "fetched_at" (.vstr (fetchedAtValue now))
  step3 ++ [("metadata", PyVal.vdict convertedMeta)]

def strListToPyList : List String → PyList
  | [] => .nil
  | s :: tl => .cons (.vstr s) (strListToPyList tl)

/-- Embeds `ResponseBuilder.build_error_response` (response_builder.py) up
to the final `json.dumps`. -/
def buildErrorResponseObj (message : String) (error_type : String)
    (suggestions : Option (List String)) (now : PyDateTime) :
    List (String × PyVal) :=
  let inner0 : PyDict :=
    .cons (.kstr "type") (.vstr error_type)
      (.cons (.kstr "message") (.vstr message)
        (.cons (.kstr "timestamp") (.vstr (fetchedAtValue now)) .nil))
  let inner :=
    match suggestions with
    | none => inner0
    | some [] => inner0
    | some l => pyDictSet inner0 "suggestions" (.vlist (strListToPyList l))
  [("error", PyVal.vdict inner)]

/-- Lookup in the top-level response object. -/
def lookupStr : List (String × PyVal) → String → Option PyVal
  | [], _ => none
  | (k, v) :: tl, key => if k = key then some v else lookupStr tl key

/-! ### ISO-8601 UTC timestamp parsing (for the fetched_at guarantee) -/
def parse2 (cs : List Char) : Option (Nat × List Char) :=
  match cs with
  | c1 :: c2 :: rest =>
    if isDigit10 c1 && isDigit10 c2 then
      some (10 * charVal10 c1 + charVal10 c2, rest)
    else none
  | _ => none

def parse4 (cs : List Char) : Option (Nat × List Char) :=
  match cs with
  | c1 :: c2 :: c3 :: c4 :: rest =>
    if isDigit10 c1 && isDigit10 c2 && isDigit10 c3 && isDigit10 c4 then
      some (1000 * charVal10 c1 + 100 * charVal10 c2 + 10 * charVal10 c3
        + charVal10 c4, rest)
    else none
  | _ => none

def expectChar (c : Char) (cs : List Char) : Option (List Char) :=
  match cs with
  | c2 :: rest => if c2 = c then some rest else none
  | [] => none

/-- Parser for a UTC ISO-8601 timestamp of the form
`YYYY-MM-DDTHH:MM:SSZ` with in-range fields; used to state that the
injected `fetched_at` value parses as a valid UTC ISO-8601 timestamp. -/
def parseIsoZChars (cs : List Char) : Option PyDateTime := do
  let (y, r1) ← parse4 cs
  let r2 ← expectChar '-' r1
  let (mo, r3) ← parse2 r2
  let r4 ← expectChar '-' r3
  let (d, r5) ← parse2 r4
  let r6 ← expectChar 'T' r5
  let (h, r7) ← parse2 r6
  let r8 ← expectChar ':' r7
  let (mi, r9) ← parse2 r8
  let r10 ← expectChar ':' r9
  let (s, r11) ← parse2 r10
  let r12 ← expectChar 'Z' r11
  match r12 with
  | [] =>
    if 1 ≤ mo ∧ mo ≤ 12 ∧ 1 ≤ d ∧ d ≤ 31 ∧ h ≤ 23 ∧ mi ≤ 59 ∧ s ≤ 59 then
      some { year := y, month := mo, day := d, hour := h, minute := mi, second := s }
    else none
  | _ :: _ => none

def parseIsoZ (t : String) : Option PyDateTime := parseIsoZChars t.data

/-- Field invariants Python guarantees for every constructed `datetime`
(in particular for `datetime.now(UTC)`). -/
abbrev ValidPyDateTime (d : PyDateTime) : Prop :=
  d.year ≤ 9999 ∧ 1 ≤ d.month ∧ d.month ≤ 12 ∧ 1 ≤ d.day ∧ d.day ≤ 31
    ∧ d.hour ≤ 23 ∧ d.minute ≤ 59 ∧ d.second ≤ 59

/-! ### Address-annotated value model for the no-mutation guarantee

To state that `build_response` never mutates its caller's structures, the
Python values are re-modelled with an explicit address on every mutable
container node.  `_convert_datetimes` is re-run in this model allocating
only fresh addresses (`convertH`), and the single in-place assignment the
builder performs (`converted_meta["fetched_at"] = ...`) is modelled as a
store update hitting every dict node with the target address
(`mutateAt`).  Erasing addresses recovers the plain embedding, tying the
two models together. -/
mutual
/-- Python value with container identity (an address on every list/dict
node). -/
inductive HVal where
  | hnone
  | hbool (b : Bool)
  | hint (n : Int)
  | hstr (s : String)
  | hdt (d : PyDateTime)
  | hlist (addr : Nat) (xs : HList)
  | hdict (addr : Nat) (es : HDict)
deriving DecidableEq, Repr
/-- List part of the addressed model. -/
inductive HList where
  | nil
  | cons (hd : HVal) (tl : HList)
deriving DecidableEq, Repr
/-- Dict part of the addressed model. -/
inductive HDict where
  | nil
  | cons (k : PyKey) (v : HVal) (tl : HDict)
deriving DecidableEq, Repr
end

mutual
/-- Does address `a` occur on a container node of the value. -/
def memAddr (a : Nat) : HVal → Bool
  | .hlist b xs => a == b || memAddrList a xs
  | .hdict b es => a == b || memAddrDict a es
  | _ => false
/-- Address occurrence in a list. -/
def memAddrList (a : Nat) : HList → Bool
  | .nil => false
  | .cons v tl => memAddr a v || memAddrList a tl
/-- Address occurrence in a dict. -/
def memAddrDict (a : Nat) : HDict → Bool
  | .nil => false
  | .cons _ v tl => memAddr a v || memAddrDict a tl
end

mutual
/-- Address-aware `_convert_datetimes`: every produced container is a new
node carrying a fresh address taken from the counter, exactly as the dict
and list displays in the Python walk allocate new objects. -/
def convertH : Nat → HVal → HVal × Nat
  | n, .hdt d => (.hstr d.isoformat, n)
  | n, .hdict _ es =>
    (.hdict n (convertHDict (n + 1) es).1, (convertHDict (n + 1) es).2)
  | n, .hlist _ xs =>
    (.hlist n (convertHList (n + 1) xs).1, (convertHList (n + 1) xs).2)
  | n, .hnone => (.hnone, n)
  | n, .hbool b => (.hbool b, n)
  | n, .hint m => (.hint m, n)
  | n, .hstr s => (.hstr s, n)
/-- List part of the address-aware walk, threading the counter. -/
def convertHList : Nat → HList → HList × Nat
  | n, .nil => (.nil, n)
  | n, .cons v tl =>
    (.cons (convertH n v).1 (convertHList (convertH n v).2 tl).1,
      (convertHList (convertH n v).2 tl).2)
/-- Dict part of the address-aware walk, threading the counter. -/
def convertHDict : Nat → HDict → HDict × Nat
  | n, .nil => (.nil, n)
  | n, .cons k v tl =>
    (.cons (.kstr k.pyStr) (convertH n v).1 (convertHDict (convertH n v).2 tl).1,
      (convertHDict (convertH n v).2 tl).2)
end

/-- Python dict assignment on an addressed dict node. -/
def hdictSet : HDict → String → HVal → HDict
  | .nil, key, v => .cons (.kstr key) v .nil
  | .cons k w tl, key, v =>
    if k = .kstr key then .cons k v tl else .cons k w (hdictSet tl key v)

mutual
/-- Effect, on an arbitrary value of the environment, of the in-place
assignment `d[key] = v0` performed on the dict object at address `a`:
every aliased dict node with that address receives the binding. -/
def mutateAt (a : Nat) (key : String) (v0 : HVal) : HVal → HVal
  | .hdict b es =>
    if b = a then .hdict b (hdictSet (mutateAtDict a key v0 es) key v0)
    else .hdict b (mutateAtDict a key v0 es)
  | .hlist b xs => .hlist b (mutateAtList a key v0 xs)
  | v => v
/-- List part of the store update. -/
def mutateAtList (a : Nat) (key : String) (v0 : HVal) : HList → HList
  | .nil => .nil
  | .cons v tl => .cons (mutateAt a key v0 v) (mutateAtList a key v0 tl)
/-- Dict part of the store update. -/
def mutateAtDict (a : Nat) (key : String) (v0 : HVal) : HDict → HDict
  | .nil => .nil
  | .cons k v tl => .cons k (mutateAt a key v0 v) (mutateAtDict a key v0 tl)
end

mutual
/-- Erase addresses back to the plain value model. -/
def eraseH : HVal → PyVal
  | .hnone => .vnone
  | .hbool b => .vbool b
  | .hint n => .vint n
  | .hstr s => .vstr s
  | .hdt d => .vdt d
  | .hlist _ xs => .vlist (eraseHList xs)
  | .hdict _ es => .vdict (eraseHDict es)
/-- Erasure of lists. -/
def eraseHList : HList → PyList
  | .nil => .nil
  | .cons v tl => .cons (eraseH v) (eraseHList tl)
/-- Erasure of dicts. -/
def eraseHDict : HDict → PyDict
  | .nil => .nil
  | .cons k v tl => .cons k (eraseH v) (eraseHDict tl)
end

/-! ### Paginated query orchestrators

Embeddings of `_query_activities_paginated` and
`_query_activities_general_paginated` (tools/activities.py) and of the
pagination-relevant control flow of `query_health_summary`
(tools/health_wellness.py).  Each embedding returns, alongside its
outcome, the trace of upstream `safe_call` invocations it issued, so the
fail-fast property is statable. -/
/-- One upstream call issued through `GarminClientWrapper.safe_call`. -/
inductive UpCall where
  | getActivities (start_index fetch_limit : Int) (activity_type : String)
  | getActivitiesByDate (start_date end_date activity_type : String)
  | healthDateCall (method : String) (date : String)
deriving DecidableEq, Repr

/-- What a paginated activities orchestrator returns to its caller: either
an error envelope (message, error type, suggestions) or the page of
records handed to the response builder together with its pagination
block. -/
inductive ToolOutcome (α : Type) where
  | errorResponse (message : String) (errType : String)
      (suggestions : Option (List String))
  | pageResponse (records : List α) (pagination : PaginationInfo)
deriving DecidableEq, Repr

/-- Clamp of one Python slice index. -/
def pyClampIdx (len : Nat) (i : Int) : Nat :=
  if i < 0 then ((len : Int) + i).toNat else min i.toNat len

/-- Python list slice `l[a:b]` (step 1). -/
def pySlice (l : List α) (a b : Int) : List α :=
  (l.take (pyClampIdx l.length b)).drop (pyClampIdx l.length a)

/-- Mapping of a decode outcome to the resolved page, as at the top of
each paginated tool: the page field of a decoded cursor, or the
invalid-cursor validation failure. -/
def pageFromDecode (r : Except CursorError PaginationCursor) : Except String Nat :=
  match r with
  | .ok cd => .ok cd.page
  | .error _ => .error "Invalid pagination cursor"

/-- Cursor-resolution prefix shared by the paginated tools: the page
defaults to 1 when no cursor (or a falsy empty cursor) is supplied. -/
def resolvePage (cursor : Option String) : Except String Nat :=
  match cursor with
  | none => .ok 1
  | some c => if c = "" then .ok 1 else pageFromDecode (decode_cursor c)

/-- Embeds `_query_activities_general_paginated` (activities.py): resolve
the cursor, validate the limit, fetch `limit + 1` records at the page's
start index through the upstream capability, trim to `limit`, and build
the pagination block. -/
def queryActivitiesGeneralPaginated (fetch : Int → Int → List α)
    (activity_type : String) (cursor : Option String) (limit : Int) :
    ToolOutcome α × List UpCall :=
  match resolvePage cursor with
  | .error msg => (.errorResponse msg "validation_error" none, [])
  | .ok current_page =>
    if limit < 1 ∨ limit > 50 then
      (.errorResponse ("Invalid limit: " ++ toString limit
          ++ ". Must be between 1 and 50.") "validation_error" none, [])
    else
      let start_index : Int := ((current_page : Int) - 1) * limit
      let fetch_limit : Int := limit + 1
      let activities := fetch start_index fetch_limit
      let has_more : Bool := decide ((activities.length : Int) > limit)
      let trimmed := pySlice activities 0 limit
      let pagination_filters : List (String × String) :=
        if activity_type ≠ "" then [("activity_type", activity_type)] else []
      (.pageResponse trimmed
          (build_pagination_info trimmed.length limit current_page has_more
            (some pagination_filters)),
        [.getActivities start_index fetch_limit activity_type])

/-- Embeds `_query_activities_paginated` (activities.py): the upstream
returns every activity of the date range (`all_activities`, fetched after
validation), and the page window of `limit + 1` records at the computed
offset is sliced from it in memory. -/
def queryActivitiesPaginated (all_activities : List α)
    (start_date end_date activity_type : String) (cursor : Option String)
    (limit : Int) : ToolOutcome α × List UpCall :=
  match resolvePage cursor with
  | .error msg => (.errorResponse msg "validation_error" none, [])
  | .ok current_page =>
    if limit < 1 ∨ limit > 50 then
      (.errorResponse ("Invalid limit: " ++ toString limit
          ++ ". Must be between 1 and 50.") "validation_error" none, [])
    else
      let offset : Int := ((current_page : Int) - 1) * limit
      let fetch_limit : Int := limit + 1
      let activities := pySlice all_activities offset (offset + fetch_limit)
      let has_more : Bool := decide ((activities.length : Int) > limit)
      let trimmed := pySlice activities 0 limit
      let pagination_filters : List (String × String) :=
        [("start_date", start_date), ("end_date", end_date)]
          ++ (if activity_type ≠ "" then [("activity_type", activity_type)] else [])
      (.pageResponse trimmed
          (build_pagination_info trimmed.length limit current_page has_more
            (some pagination_filters)),
        [.getActivitiesByDate start_date end_date activity_type])

/-- Outcome of the health-summary tool. -/
inductive HealthOutcome where
  | errorResponse (message : String) (errType : String)
      (suggestions : Option (List String))
  | rangeResponse (dates : List String) (pagination : PaginationInfo)
  | singleResponse (dateStr : String)
deriving DecidableEq, Repr

/-- Upstream calls the per-day collection loop of `query_health_summary`
issues for one date (each wrapped in its own try/except in the source). -/
def perDayCalls (include_tr include_ts include_bb : Bool) (d : String) :
    List UpCall :=
  [.healthDateCall "get_stats" d, .healthDateCall "get_user_summary" d]
    ++ (if include_tr then [.healthDateCall "get_training_readiness" d] else [])
    ++ (if include_ts then [.healthDateCall "get_training_status" d] else [])
    ++ (if include_bb then
          [.healthDateCall "get_body_battery" d,
           .healthDateCall "get_body_battery_events" d]
        else [])

/-- Embeds the pagination-relevant control flow of `query_health_summary`
(health_wellness.py): cursor resolution, limit defaulting to 7 and 1..30
validation, day-range slicing by the `limit + 1` mechanism, then the
per-day upstream calls.  Date parsing is abstracted: `resolve` stands for
`parse_date_string(...).strftime("%Y-%m-%d")` and `dateRange` for the
day-by-day expansion of the resolved range; the integer-coercion of a
string limit (whose failure is also a validation error) is outside this
embedding. -/
def queryHealthSummary (resolve : String → String)
    (dateRange : String → String → List String)
    (date : Option String) (start_date end_date : Option String)
    (cursor : Option String) (limit : Option Int)
    (include_tr include_ts include_bb : Bool) :
    HealthOutcome × List UpCall :=
  match resolvePage cursor with
  | .error msg => (.errorResponse msg "validation_error" none, [])
  | .ok current_page =>
    let lim := limit.getD 7
    if lim < 1 ∨ lim > 30 then
      (.errorResponse ("Invalid limit: " ++ toString lim
          ++ ". Must be between 1 and 30.") "validation_error" none, [])
    else
      match date with
      | some d =>
        let ds := resolve d
        (.singleResponse ds, perDayCalls include_tr include_ts include_bb ds)
      | none =>
        match start_date, end_date with
        | some sd, some ed =>
          let all_dates := dateRange sd ed
          let offset : Int := ((current_page : Int) - 1) * lim
          let fetch_limit : Int := lim + 1
          let dates0 := pySlice all_dates offset (offset + fetch_limit)
          let has_more : Bool := decide ((dates0.length : Int) > lim)
          let dates := pySlice dates0 0 lim
          (.rangeResponse dates
              (build_pagination_info dates.length lim current_page has_more
                (some [("start_date", sd), ("end_date", ed)])),
            dates.flatMap (perDayCalls include_tr include_ts include_bb))
        | _, _ =>
          let ds := resolve "today"
          (.singleResponse ds, perDayCalls include_tr include_ts include_bb ds)

/-! ### Upstream error categorization and the tool error boundary

Embedding of `GarminClientWrapper.safe_call` (client.py) and of the
`except GarminAPIError` boundary of `query_activities` (activities.py). -/
/-- List-prefix test on characters. -/
def prefixChars : List Char → List Char → Bool
  | [], _ => true
  | _ :: _, [] => false
  | p :: ps, c :: cs => p == c && prefixChars ps cs

/-- Substring containment on characters. -/
def containsChars (needle : List Char) : List Char → Bool
  | [] => prefixChars needle []
  | c :: cs => prefixChars needle (c :: cs) || containsChars needle cs

/-- Python substring test `needle in hay`. -/
def pyContains (hay needle : String) : Bool := containsChars needle.data hay.data

/-- Exceptions a proxied client method can raise, as distinguished by
`safe_call`. -/
inductive UpstreamExc where
  | attrError
  | connectAuthError
  | garthHTTPError (msg : String)
  | otherExc (msg : String)
deriving DecidableEq, Repr

/-- The `GarminAPIError` hierarchy of client.py, with the constructor-fixed
tailored message of each subclass. -/
inductive GarminError where
  | apiError (msg : String)
  | rateLimit
  | notFound (resource : String)
  | authError
deriving DecidableEq, Repr

def GarminError.message : GarminError → String
  | .apiError m => m
  | .rateLimit => "Rate limit exceeded. Please wait a few minutes before trying again."
  | .notFound r => r ++ " not found. Please check the ID or date and try again."
  | .authError =>
    "Authentication failed. Please run \u0027garmin-connect-mcp-auth\u0027 to re-authenticate."

/-- Embeds the exception mapping of `GarminClientWrapper.safe_call`
(client.py): the proxied call either returns a value or raises, and each
raised exception is converted to the corresponding `GarminError`, with
`GarthHTTPError` classified by substring tests on its message. -/
def safe_call (method_name : String) (outcome : UpstreamExc ⊕ α) :
    Except GarminError α :=
  match outcome with
  | .inr v => .ok v
  | .inl .attrError =>
    .error (.apiError ("Method \u0027" ++ method_name
      ++ "\u0027 not found on Garmin client"))
  | .inl .connectAuthError => .error .authError
  | .inl (.garthHTTPError s) =>
    if pyContains s "429" || pyContains s "Too Many Requests" then
      .error .rateLimit
    else if pyContains s "404" || pyContains s "Not Found" then
      .error (.notFound "Resource")
    else if pyContains s "401" || pyContains s "403" || pyContains s "Unauthorized" then
      .error .authError
    else .error (.apiError ("Garmin API error: " ++ s))
  | .inl (.otherExc s) => .error (.apiError ("Unexpected error: " ++ s))

/-- Error-envelope components handed to
`ResponseBuilder.build_error_response`. -/
structure ErrEnvelope where
  errType : String
  message : String
  suggestions : Option (List String)
deriving DecidableEq, Repr

/-- Embeds the `except GarminAPIError` handler of `query_activities`
(activities.py): every categorized upstream failure is reported with the
single error type `garmin_api_error`, the message of the exception, and
the same two generic suggestions. -/
def queryActivitiesHandleError (e : GarminError) : ErrEnvelope :=
  { errType := "garmin_api_error"
    message := e.message
    suggestions := some ["Check your Garmin Connect credentials",
      "Verify your internet connection"] }

/-! ### Theorems -/

theorem natCharsAux_eq_digits (fuel n : Nat) (h : n ≤ fuel) :
    natCharsAux fuel n = (Nat.digits 10 n).reverse.map digitChar10 := by
  induction fuel generalizing n with
  | zero =>
    have : n = 0 := by omega
    subst this
    simp [natCharsAux]
  | succ fuel ih =>
    by_cases hn : n = 0
    · subst hn
      simp [natCharsAux]
    · have hstep : Nat.digits 10 n = n % 10 :: Nat.digits 10 (n / 10) :=
        Nat.digits_def' (by norm_num) (Nat.pos_of_ne_zero hn)
      have hdiv : n / 10 ≤ fuel := by
        have : n / 10 < n := Nat.div_lt_self (Nat.pos_of_ne_zero hn) (by norm_num)
        omega
      unfold natCharsAux
      rw [if_neg hn, ih (n / 10) hdiv, hstep]
      simp

theorem natChars_eq (n : Nat) :
    natChars n = if n = 0 then ['0'] else ((Nat.digits 10 n).reverse.map digitChar10) := by
  unfold natChars
  by_cases hn : n = 0
  · simp [hn]
  · rw [if_neg hn, if_neg hn, natCharsAux_eq_digits n n (Nat.le_refl n)]

theorem charVal_digitChar {d : Nat} (h : d < 10) : charVal10 (digitChar10 d) = d := by
  interval_cases d <;> decide

theorem isDigit10_digitChar {d : Nat} (h : d < 10) : isDigit10 (digitChar10 d) = true := by
  interval_cases d <;> decide

theorem digitChar_eq_zero_iff {d : Nat} (h : d < 10) : digitChar10 d = '0' ↔ d = 0 := by
  interval_cases d <;> simp <;> decide

theorem digitChar_charVal {c : Char} (h : isDigit10 c = true) :
    digitChar10 (charVal10 c) = c := by
  simp only [isDigit10, decide_eq_true_eq] at h
  have h48 : 48 + (c.toNat - 48) = c.toNat := by omega
  simp only [digitChar10, charVal10, h48]
  exact Char.ofNat_toNat c

theorem charVal_lt_ten {c : Char} (h : isDigit10 c = true) : charVal10 c < 10 := by
  simp only [isDigit10, decide_eq_true_eq] at h
  simp only [charVal10]
  omega

theorem charVal_eq_zero_iff {c : Char} (h : isDigit10 c = true) :
    charVal10 c = 0 ↔ c = '0' := by
  constructor
  · intro h0
    have := digitChar_charVal h
    rw [h0] at this
    exact this.symm
  · intro h0
    subst h0
    decide

theorem natChars_ne_nil (n : Nat) : natChars n ≠ [] := by
  rw [natChars_eq]
  split
  · simp
  · rename_i hn
    have : Nat.digits 10 n ≠ [] := Nat.digits_ne_nil_iff_ne_zero.mpr hn
    simp [this]

theorem natChars_all_digits (n : Nat) : ∀ c ∈ natChars n, isDigit10 c = true := by
  intro c hc
  rw [natChars_eq] at hc
  split at hc
  · simp at hc
    subst hc
    decide
  · simp only [List.mem_map, List.mem_reverse] at hc
    obtain ⟨d, hd, rfl⟩ := hc
    exact isDigit10_digitChar (Nat.digits_lt_base (by norm_num) hd)

theorem natChars_head_ne_zero {n : Nat} (hn : n ≠ 0) :
    (natChars n).head? ≠ some '0' := by
  rw [natChars_eq, if_neg hn]
  have hne : Nat.digits 10 n ≠ [] := Nat.digits_ne_nil_iff_ne_zero.mpr hn
  rw [List.head?_map, List.head?_reverse]
  rw [List.getLast?_eq_getLast _ hne]
  intro h
  simp at h
  have hlast := Nat.getLast_digit_ne_zero 10 hn
  have hmem : (Nat.digits 10 n).getLast hne ∈ Nat.digits 10 n := List.getLast_mem hne
  have hlt : (Nat.digits 10 n).getLast hne < 10 := Nat.digits_lt_base (by norm_num) hmem
  exact hlast ((digitChar_eq_zero_iff hlt).mp h)

theorem natChars_val (n : Nat) :
    Nat.ofDigits 10 ((natChars n).map charVal10).reverse = n := by
  rw [natChars_eq]
  split
  · rename_i hn
    subst hn
    decide
  · have : ((Nat.digits 10 n).reverse.map digitChar10).map charVal10
        = (Nat.digits 10 n).reverse := by
      rw [List.map_map]
      conv_rhs => rw [← List.map_id ((Nat.digits 10 n).reverse)]
      apply List.map_congr_left
      intro d hd
      simp only [Function.comp_apply, id]
      exact charVal_digitChar (Nat.digits_lt_base (by norm_num) (List.mem_reverse.mp hd))
    rw [this, List.reverse_reverse, Nat.ofDigits_digits]

/-- Splitting a character run at a boundary: if every character of the first
part satisfies the predicate and the second part does not start with one,
`takeWhile` keeps exactly the first part and `dropWhile` the second. -/
theorem takeWhile_dropWhile_split (p : Char → Bool) (l1 l2 : List Char)
    (h1 : ∀ c ∈ l1, p c = true) (h2 : ∀ c, l2.head? = some c → p c = false) :
    (l1 ++ l2).takeWhile p = l1 ∧ (l1 ++ l2).dropWhile p = l2 := by
  induction l1 with
  | nil =>
    simp only [List.nil_append]
    cases l2 with
    | nil => simp
    | cons c t =>
      have := h2 c rfl
      simp [List.takeWhile, List.dropWhile, this]
  | cons c t ih =>
    have hc : p c = true := h1 c (List.mem_cons_self c t)
    have ht := ih (fun x hx => h1 x (List.mem_cons_of_mem c hx))
    simp [List.takeWhile, List.dropWhile, hc, ht.1, ht.2]

/-- Reading back a canonical decimal rendering recovers the number and the
remainder, provided the remainder does not begin with a digit. -/
theorem readNat_natChars (n : Nat) (rest : List Char)
    (hrest : ∀ c, rest.head? = some c → isDigit10 c = false) :
    readNat (natChars n ++ rest) = some (n, rest) := by
  have hsplit := takeWhile_dropWhile_split isDigit10 (natChars n) rest
    (natChars_all_digits n) hrest
  unfold readNat
  rw [hsplit.1, hsplit.2]
  rw [if_neg (natChars_ne_nil n)]
  have hguard : ¬((natChars n).head? = some '0' ∧ natChars n ≠ ['0']) := by
    by_cases hn : n = 0
    · subst hn
      decide
    · intro hcon
      exact natChars_head_ne_zero hn hcon.1
  rw [if_neg hguard]
  rw [natChars_val]

/-- Every digit run accepted by `readNat` is itself the canonical rendering
of the value read. -/
theorem natChars_of_digit_run (ds : List Char) (hnil : ds ≠ [])
    (hlead : ¬(ds.head? = some '0' ∧ ds ≠ ['0']))
    (hmem : ∀ c ∈ ds, isDigit10 c = true) :
    natChars (Nat.ofDigits 10 ((ds.map charVal10).reverse)) = ds := by
  have hvals : ∀ d ∈ (ds.map charVal10).reverse, d < 10 := by
    intro d hd
    rw [List.mem_reverse, List.mem_map] at hd
    obtain ⟨c, hc, rfl⟩ := hd
    exact charVal_lt_ten (hmem c hc)
  by_cases hzero : ds = ['0']
  · subst hzero
    decide
  · have hhead : ds.head? ≠ some '0' := fun hh => hlead ⟨hh, hzero⟩
    have hne : (ds.map charVal10).reverse ≠ [] := by
      simp [hnil]
    have hlastne : ∀ hne2 : (ds.map charVal10).reverse ≠ [],
        ((ds.map charVal10).reverse).getLast hne2 ≠ 0 := by
      intro hne2
      rw [List.getLast_reverse]
      cases ds with
      | nil => exact absurd rfl hnil
      | cons c t =>
        simp only [List.map_cons, List.head_cons]
        intro hzero2
        have hcd : isDigit10 c = true := hmem c (List.mem_cons_self c t)
        have hc0 : c = '0' := (charVal_eq_zero_iff hcd).mp hzero2
        exact hhead (by simp [hc0])
    have hdig : Nat.digits 10 (Nat.ofDigits 10 ((ds.map charVal10).reverse))
        = (ds.map charVal10).reverse :=
      Nat.digits_ofDigits 10 (by norm_num) _ hvals (fun h2 => hlastne h2)
    have hn0 : Nat.ofDigits 10 ((ds.map charVal10).reverse) ≠ 0 := by
      rw [← Nat.digits_ne_nil_iff_ne_zero, hdig]
      exact hne
    rw [natChars_eq, if_neg hn0, hdig, List.reverse_reverse, List.map_map]
    conv_rhs => rw [← List.map_id ds]
    apply List.map_congr_left
    intro c hc
    simp only [Function.comp_apply, id]
    exact digitChar_charVal (hmem c hc)

/-- Conversely, every successful read comes from the canonical rendering of
the value read, followed by the returned remainder. -/
theorem readNat_inv {cs : List Char} {n : Nat} {rest : List Char}
    (h : readNat cs = some (n, rest)) : cs = natChars n ++ rest := by
  have hmem : ∀ c ∈ cs.takeWhile isDigit10, isDigit10 c = true := by
    intro c hc
    exact List.mem_takeWhile_imp hc
  have hcs : cs.takeWhile isDigit10 ++ cs.dropWhile isDigit10 = cs :=
    List.takeWhile_append_dropWhile isDigit10 cs
  unfold readNat at h
  simp only at h
  by_cases hnil : cs.takeWhile isDigit10 = []
  · rw [if_pos hnil] at h
    exact absurd h (by simp)
  rw [if_neg hnil] at h
  by_cases hlead : (cs.takeWhile isDigit10).head? = some '0'
      ∧ cs.takeWhile isDigit10 ≠ ['0']
  · rw [if_pos hlead] at h
    exact absurd h (by simp)
  rw [if_neg hlead] at h
  simp only [Option.some.injEq, Prod.mk.injEq] at h
  obtain ⟨hn, hrest⟩ := h
  rw [← hn, ← hrest, natChars_of_digit_run _ hnil hlead hmem]
  exact hcs.symm

theorem readNet_netChars (s : List Char) (rest : List Char) :
    readNet (netChars s ++ rest) = some (s, rest) := by
  unfold netChars readNet
  rw [List.append_assoc, List.cons_append]
  rw [readNat_natChars s.length (':' :: (s ++ rest)) (by intro c hc; simp at hc; subst hc; decide)]
  simp only
  rw [if_pos (by simp)]
  rw [List.take_left, List.drop_left]

theorem readNet_inv {cs s rest : List Char} (h : readNet cs = some (s, rest)) :
    cs = netChars s ++ rest ∧ s.length ≤ cs.length := by
  unfold readNet at h
  cases hr : readNat cs with
  | none => rw [hr] at h; exact absurd h (by simp)
  | some pr =>
    obtain ⟨n, mid⟩ := pr
    rw [hr] at h
    simp only at h
    cases hm : mid with
    | nil => rw [hm] at h; exact absurd h (by simp)
    | cons c body =>
      rw [hm] at h
      by_cases hc : c = ':'
      · subst hc
        simp only at h
        by_cases hlen : n ≤ body.length
        · rw [if_pos hlen] at h
          simp only [Option.some.injEq, Prod.mk.injEq] at h
          obtain ⟨hs, hrest⟩ := h
          have hcs := readNat_inv hr
          have hbody : body = s ++ rest := by
            rw [← hs, ← hrest, List.take_append_drop]
          have hslen : s.length = n := by
            rw [← hs]
            simp [List.length_take]
            omega
          constructor
          · rw [hcs, hm, hbody, netChars, hslen]
            simp
          · rw [hcs, hm, hbody]
            simp
            omega
        · rw [if_neg hlen] at h
          exact absurd h (by simp)
      · exact absurd h (by cases c; simp_all [readNet])

theorem netChars_length (s : List Char) : 2 ≤ (netChars s).length := by
  unfold netChars
  have h1 : 1 ≤ (natChars s.length).length := by
    cases hn : natChars s.length with
    | nil => exact absurd hn (natChars_ne_nil _)
    | cons a t => simp
  simp only [List.length_append, List.length_cons]
  omega

theorem readPairs_pairsChars (fs : List (String × String)) (fuel : Nat)
    (hfuel : fs.length ≤ fuel) :
    readPairs fuel (pairsChars fs) = some fs := by
  induction fs generalizing fuel with
  | nil => cases fuel <;> rfl
  | cons kv tl ih =>
    obtain ⟨k, v⟩ := kv
    cases fuel with
    | zero => simp at hfuel
    | succ fuel =>
      have hne : netChars k.data ++ netChars v.data ++ pairsChars tl ≠ [] := by
        intro hcon
        have h2 := netChars_length k.data
        rw [List.append_assoc] at hcon
        obtain ⟨h3, h4⟩ := List.append_eq_nil.mp hcon
        rw [h3] at h2
        simp at h2
      have hfuel2 : tl.length ≤ fuel := by
        have : tl.length + 1 ≤ fuel + 1 := by simpa using hfuel
        omega
      unfold pairsChars
      cases hsh : netChars k.data ++ netChars v.data ++ pairsChars tl with
      | nil => exact absurd hsh hne
      | cons c cs =>
        unfold readPairs
        rw [← hsh, List.append_assoc]
        simp only [readNet_netChars]
        rw [ih fuel hfuel2]

theorem readPairs_inv {fuel : Nat} {cs : List Char} {fs : List (String × String)}
    (h : readPairs fuel cs = some fs) : cs = pairsChars fs := by
  induction fuel generalizing cs fs with
  | zero =>
    cases cs with
    | nil =>
      simp [readPairs] at h
      subst h
      rfl
    | cons c t => simp [readPairs] at h
  | succ fuel ih =>
    cases cs with
    | nil =>
      simp [readPairs] at h
      subst h
      rfl
    | cons c t =>
      unfold readPairs at h
      cases h1 : readNet (c :: t) with
      | none => rw [h1] at h; exact absurd h (by simp)
      | some pr1 =>
        obtain ⟨k, rest1⟩ := pr1
        rw [h1] at h
        simp only at h
        cases h2 : readNet rest1 with
        | none => rw [h2] at h; exact absurd h (by simp)
        | some pr2 =>
          obtain ⟨v, rest2⟩ := pr2
          rw [h2] at h
          simp only at h
          cases h3 : readPairs fuel rest2 with
          | none => rw [h3] at h; exact absurd h (by simp)
          | some tl =>
            rw [h3] at h
            simp only [Option.some.injEq] at h
            subst h
            have e1 := (readNet_inv h1).1
            have e2 := (readNet_inv h2).1
            have e3 := ih h3
            unfold pairsChars
            rw [e1, e2, e3]
            simp

theorem pairsChars_length_ge (fs : List (String × String)) :
    fs.length ≤ (pairsChars fs).length := by
  induction fs with
  | nil => simp [pairsChars]
  | cons kv tl ih =>
    obtain ⟨k, v⟩ := kv
    have h1 := netChars_length k.data
    simp only [pairsChars, List.length_append, List.length_cons]
    omega

theorem decodePageArm_of {cs : List Char} {n : Nat} {r : List Char}
    (h : readNat cs = some (n, r)) : decodePageArm cs = some (some n, r) := by
  unfold decodePageArm
  rw [h]

theorem decodePageArm_inv {cs : List Char} {p : Nat} {rest : List Char}
    (h : decodePageArm cs = some (some p, rest)) : readNat cs = some (p, rest) := by
  unfold decodePageArm at h
  split at h
  · cases h
  · rename_i n r heq
    simp only [Option.some.injEq, Prod.mk.injEq] at h
    obtain ⟨hn, hr⟩ := h
    cases hn
    cases hr
    exact heq

theorem decodeFiltersArm_of {cs : List Char} {fs : List (String × String)}
    (h : readPairs cs.length cs = some fs) : decodeFiltersArm cs = some (some fs) := by
  unfold decodeFiltersArm
  rw [h]

theorem decodeFiltersArm_inv {cs : List Char} {fs : List (String × String)}
    (h : decodeFiltersArm cs = some (some fs)) : readPairs cs.length cs = some fs := by
  unfold decodeFiltersArm at h
  split at h
  · cases h
  · rename_i fs2 heq
    simp only [Option.some.injEq] at h
    cases h
    exact heq

theorem decodePagePart_cons (c : Char) (tail : List Char) :
    decodePagePart (c :: tail)
      = if c = 'P' then decodePageArm tail else some (none, c :: tail) := rfl

theorem decodeFiltersPart_cons (c : Char) (tail : List Char) :
    decodeFiltersPart (c :: tail)
      = if c = 'F' then decodeFiltersArm tail else none := rfl

theorem decodeCursorChars_of_parts {cs : List Char} {pageOpt : Option Nat}
    {rest : List Char} {filtersOpt : Option (List (String × String))}
    (h1 : decodePagePart cs = some (pageOpt, rest))
    (h2 : decodeFiltersPart rest = some filtersOpt) :
    decodeCursorChars cs = finishDecode pageOpt filtersOpt := by
  unfold decodeCursorChars
  split
  · rename_i heq
    rw [heq] at h1
    cases h1
  · rename_i pageOpt2 rest2 heq
    rw [heq] at h1
    simp only [Option.some.injEq, Prod.mk.injEq] at h1
    obtain ⟨ha, hb⟩ := h1
    cases ha
    cases hb
    split
    · rename_i heq2
      rw [heq2] at h2
      cases h2
    · rename_i filtersOpt2 heq2
      rw [heq2] at h2
      simp only [Option.some.injEq] at h2
      cases h2
      rfl

theorem encode_cursor_data (page : Nat) (filters : Option (List (String × String))) :
    (encode_cursor page filters).data = 'P' :: (natChars page ++ filtersChars filters) := rfl

theorem filtersChars_not_digit_head (filters : Option (List (String × String))) :
    ∀ c, (filtersChars filters).head? = some c → isDigit10 c = false := by
  intro c hc
  cases filters with
  | none => simp [filtersChars] at hc
  | some fs =>
    simp [filtersChars] at hc
    subst hc
    decide

theorem decodePagePart_encode (page : Nat) (filters : Option (List (String × String))) :
    decodePagePart ('P' :: (natChars page ++ filtersChars filters))
      = some (some page, filtersChars filters) := by
  rw [decodePagePart_cons, if_pos rfl]
  exact decodePageArm_of
    (readNat_natChars page (filtersChars filters) (filtersChars_not_digit_head filters))

theorem decodeFiltersPart_filtersChars (filters : Option (List (String × String))) :
    decodeFiltersPart (filtersChars filters) = some filters := by
  cases filters with
  | none => rfl
  | some fs =>
    show decodeFiltersPart ('F' :: pairsChars fs) = some (some fs)
    rw [decodeFiltersPart_cons, if_pos rfl]
    exact decodeFiltersArm_of
      (readPairs_pairsChars fs (pairsChars fs).length (pairsChars_length_ge fs))

/-- Round trip of the codec on any record, stated over the raw components
so that the claim theorems can share it. -/
theorem decode_encode_aux (page : Nat) (filters : Option (List (String × String))) :
    decode_cursor (encode_cursor page filters) = .ok { page := page, filters := filters } := by
  show decodeCursorChars (encode_cursor page filters).data
      = .ok { page := page, filters := filters }
  rw [encode_cursor_data]
  rw [decodeCursorChars_of_parts (decodePagePart_encode page filters)
    (decodeFiltersPart_filtersChars filters)]
  rfl

theorem decodePagePart_inv_some {cs : List Char} {p : Nat} {rest : List Char}
    (h : decodePagePart cs = some (some p, rest)) :
    cs = 'P' :: (natChars p ++ rest) := by
  cases cs with
  | nil =>
    unfold decodePagePart at h
    cases h
  | cons c tail =>
    rw [decodePagePart_cons] at h
    by_cases hc : c = 'P'
    · subst hc
      rw [if_pos rfl] at h
      have := readNat_inv (decodePageArm_inv h)
      rw [this]
    · rw [if_neg hc] at h
      simp at h

theorem decodeFiltersPart_inv_none {cs : List Char}
    (h : decodeFiltersPart cs = some none) : cs = [] := by
  cases cs with
  | nil => rfl
  | cons c tail =>
    rw [decodeFiltersPart_cons] at h
    by_cases hc : c = 'F'
    · subst hc
      rw [if_pos rfl] at h
      unfold decodeFiltersArm at h
      split at h
      · cases h
      · simp at h
    · rw [if_neg hc] at h
      cases h

theorem decodeFiltersPart_inv_some {cs : List Char} {fs : List (String × String)}
    (h : decodeFiltersPart cs = some (some fs)) : cs = 'F' :: pairsChars fs := by
  cases cs with
  | nil => cases h
  | cons c tail =>
    rw [decodeFiltersPart_cons] at h
    by_cases hc : c = 'F'
    · subst hc
      have := readPairs_inv (decodeFiltersArm_inv h)
      rw [← this]
    · rw [if_neg hc] at h
      cases h

/-- Characterization of decode: every token either fails with the
invalid-cursor error or is exactly an encoding of the record it decodes
to. -/
theorem decodeCursorChars_err_page {cs : List Char}
    (h1 : decodePagePart cs = none) :
    decodeCursorChars cs = .error .invalidCursor := by
  unfold decodeCursorChars
  split
  · rfl
  · rename_i pageOpt2 rest2 heq
    rw [heq] at h1
    cases h1

theorem decodeCursorChars_err_filters {cs : List Char} {pageOpt : Option Nat}
    {rest : List Char}
    (h1 : decodePagePart cs = some (pageOpt, rest))
    (h2 : decodeFiltersPart rest = none) :
    decodeCursorChars cs = .error .invalidCursor := by
  unfold decodeCursorChars
  split
  · rfl
  · rename_i pageOpt2 rest2 heq
    rw [heq] at h1
    simp only [Option.some.injEq, Prod.mk.injEq] at h1
    obtain ⟨ha, hb⟩ := h1
    cases ha
    cases hb
    split
    · rfl
    · rename_i f heq2
      rw [heq2] at h2
      cases h2

theorem decode_cursor_characterization (s : String) :
    decode_cursor s = .error .invalidCursor ∨
    ∃ r : PaginationCursor, decode_cursor s = .ok r ∧
      encode_cursor r.page r.filters = s := by
  cases h1 : decodePagePart s.data with
  | none => exact Or.inl (decodeCursorChars_err_page h1)
  | some pr =>
    obtain ⟨pageOpt, rest⟩ := pr
    cases h2 : decodeFiltersPart rest with
    | none => exact Or.inl (decodeCursorChars_err_filters h1 h2)
    | some fsOpt =>
      have hmain : decode_cursor s = finishDecode pageOpt fsOpt :=
        decodeCursorChars_of_parts h1 h2
      cases pageOpt with
      | none => exact Or.inl hmain
      | some p =>
        refine Or.inr ⟨{ page := p, filters := fsOpt }, hmain, ?_⟩
        have e1 := decodePagePart_inv_some h1
        apply String.ext
        rw [encode_cursor_data, e1]
        cases fsOpt with
        | none => rw [decodeFiltersPart_inv_none h2]; rfl
        | some fs => rw [decodeFiltersPart_inv_some h2]; rfl

/-- C1: for every page number `page >= 1` and every optional string-to-string
filter mapping, decoding the encoding of `(page, filters)` yields a record
whose page equals `page` and whose filters are identical to the supplied
filters; with no filters supplied the decoded filters resolve to none
without error. -/
theorem cursor_round_trip (page : Nat) (filters : Option (List (String × String)))
    (_hpage : 1 ≤ page) :
    decode_cursor (encode_cursor page filters)
      = .ok { page := page, filters := filters } :=
  decode_encode_aux page filters

/-- Witness for C1 at the concrete record used by the repository test
`test_cursor_round_trip`. -/
theorem cursor_round_trip_witness :
    decode_cursor (encode_cursor 5
        (some [("start_date", "2024-01-01"), ("activity_type", "cycling")]))
      = .ok { page := 5,
              filters := some [("start_date", "2024-01-01"), ("activity_type", "cycling")] } :=
  cursor_round_trip 5 (some [("start_date", "2024-01-01"), ("activity_type", "cycling")])
    (by decide)

/-- C4: decoding any string not produced by `encode_cursor` fails with the
`InvalidCursor` decode error and never with an unrelated low-level error
(every token either fails that way or is exactly an encoding of the record
it decodes to); in particular `"invalid-cursor-data"`, the empty string and
a record lacking a page field all fail. -/
theorem decode_cursor_tamper_detection :
    (∀ s : String, decode_cursor s = .error .invalidCursor ∨
      ∃ r : PaginationCursor, decode_cursor s = .ok r ∧
        encode_cursor r.page r.filters = s)
    ∧ decode_cursor "invalid-cursor-data" = .error .invalidCursor
    ∧ decode_cursor "" = .error .invalidCursor
    ∧ decode_cursor "F0:0:" = .error .invalidCursor :=
  ⟨decode_cursor_characterization, by decide, by decide, by decide⟩

/-- C2: `build_pagination_info` produces a block whose cursor decodes to
`current_page + 1` carrying exactly the supplied filters whenever
`has_more` is true, whose cursor is none exactly when `has_more` is false,
and whose `limit` and `returned` fields pass through unchanged. -/
theorem build_pagination_info_spec (returned_count : Nat) (limit : Int)
    (current_page : Nat) (has_more : Bool)
    (filters : Option (List (String × String))) :
    (has_more = true →
      ∃ c, (build_pagination_info returned_count limit current_page has_more filters).cursor
          = some c
        ∧ decode_cursor c = .ok { page := current_page + 1, filters := filters })
    ∧ ((build_pagination_info returned_count limit current_page has_more filters).cursor
        = none ↔ has_more = false)
    ∧ (build_pagination_info returned_count limit current_page has_more filters).limit
        = limit
    ∧ (build_pagination_info returned_count limit current_page has_more filters).returned
        = returned_count := by
  refine ⟨?_, ?_, rfl, rfl⟩
  · intro hm
    subst hm
    exact ⟨encode_cursor (current_page + 1) filters, by simp [build_pagination_info],
      decode_encode_aux (current_page + 1) filters⟩
  · cases has_more with
    | true => simp [build_pagination_info]
    | false => simp [build_pagination_info]

/-- Witness for C2 at the concrete inputs of the repository test
`test_build_pagination_info_has_more`. -/
theorem build_pagination_info_spec_witness :
    ∃ c, (build_pagination_info 20 20 1 true (some [("start_date", "2024-01-01")])).cursor
        = some c
      ∧ decode_cursor c = .ok { page := 2, filters := some [("start_date", "2024-01-01")] } :=
  (build_pagination_info_spec 20 20 1 true (some [("start_date", "2024-01-01")])).1 rfl

mutual
theorem isNormalized_convert (v : PyVal) : IsNormalized v (convertDatetimes v) :=
  match v with
  | .vdt d => .dt d
  | .vnone => .none_
  | .vbool b => .bool b
  | .vint n => .int n
  | .vstr s => .str s
  | .vlist xs => .list (isNormalizedList_convert xs)
  | .vdict es => .dict (isNormalizedDict_convert es)
theorem isNormalizedList_convert (xs : PyList) : IsNormalizedList xs (convertList xs) :=
  match xs with
  | .nil => .nil
  | .cons x tl => .cons (isNormalized_convert x) (isNormalizedList_convert tl)
theorem isNormalizedDict_convert (es : PyDict) : IsNormalizedDict es (convertDict es) :=
  match es with
  | .nil => .nil
  | .cons k v tl => .cons k (isNormalized_convert v) (isNormalizedDict_convert tl)
end

mutual
theorem hasDatetime_convert (v : PyVal) : hasDatetime (convertDatetimes v) = false :=
  match v with
  | .vdt _ => rfl
  | .vnone => rfl
  | .vbool _ => rfl
  | .vint _ => rfl
  | .vstr _ => rfl
  | .vlist xs => hasDatetimeList_convert xs
  | .vdict es => hasDatetimeDict_convert es
theorem hasDatetimeList_convert (xs : PyList) :
    hasDatetimeList (convertList xs) = false :=
  match xs with
  | .nil => rfl
  | .cons x tl => by
    show hasDatetimeList (.cons (convertDatetimes x) (convertList tl)) = false
    show (hasDatetime (convertDatetimes x) || hasDatetimeList (convertList tl)) = false
    rw [hasDatetime_convert x, hasDatetimeList_convert tl]
    rfl
theorem hasDatetimeDict_convert (es : PyDict) :
    hasDatetimeDict (convertDict es) = false :=
  match es with
  | .nil => rfl
  | .cons k v tl => by
    show hasDatetimeDict (.cons (.kstr k.pyStr) (convertDatetimes v) (convertDict tl)) = false
    show (hasDatetime (convertDatetimes v) || hasDatetimeDict (convertDict tl)) = false
    rw [hasDatetime_convert v, hasDatetimeDict_convert tl]
    rfl
end

theorem pyDictTruthy_convert (es : PyDict) :
    pyDictTruthy (convertDict es) = pyDictTruthy es := by
  cases es with
  | nil => rfl
  | cons k v tl => rfl

theorem pyDictLookupStr_set (es : PyDict) (key : String) (v : PyVal) :
    pyDictLookupStr (pyDictSet es key v) key = some v :=
  match es with
  | .nil => by simp [pyDictSet, pyDictLookupStr]
  | .cons k w tl => by
    by_cases hk : k = PyKey.kstr key
    · simp [pyDictSet, hk, pyDictLookupStr]
    · simp [pyDictSet, hk, pyDictLookupStr, pyDictLookupStr_set tl key v]

theorem parse2_pad2 {n : Nat} (h : n < 100) (rest : List Char) :
    parse2 (pad2Chars n ++ rest) = some (n, rest) := by
  have h1 : n / 10 < 10 := by omega
  have h2 : n % 10 < 10 := by omega
  show parse2 (digitChar10 (n / 10) :: digitChar10 (n % 10) :: rest) = some (n, rest)
  simp only [parse2]
  rw [isDigit10_digitChar h1, isDigit10_digitChar h2]
  simp only [Bool.and_self, if_pos]
  rw [charVal_digitChar h1, charVal_digitChar h2]
  have : 10 * (n / 10) + n % 10 = n := by omega
  rw [this]

theorem parse4_pad4 {n : Nat} (h : n < 10000) (rest : List Char) :
    parse4 (pad4Chars n ++ rest) = some (n, rest) := by
  have h1 : n / 1000 < 10 := by omega
  have h2 : n / 100 % 10 < 10 := by omega
  have h3 : n / 10 % 10 < 10 := by omega
  have h4 : n % 10 < 10 := by omega
  show parse4 (digitChar10 (n / 1000) :: digitChar10 (n / 100 % 10)
    :: digitChar10 (n / 10 % 10) :: digitChar10 (n % 10) :: rest) = some (n, rest)
  simp only [parse4]
  rw [isDigit10_digitChar h1, isDigit10_digitChar h2, isDigit10_digitChar h3,
    isDigit10_digitChar h4]
  simp only [Bool.and_self, if_pos]
  rw [charVal_digitChar h1, charVal_digitChar h2, charVal_digitChar h3,
    charVal_digitChar h4]
  have : 1000 * (n / 1000) + 100 * (n / 100 % 10) + 10 * (n / 10 % 10) + n % 10 = n := by
    omega
  rw [this]

theorem expectChar_cons (c : Char) (rest : List Char) :
    expectChar c (c :: rest) = some rest := by
  simp [expectChar]

/-- The injected timestamp parses back to exactly the clock reading. -/
theorem parseIsoZ_fetchedAt (now : PyDateTime) (h : ValidPyDateTime now) :
    parseIsoZ (fetchedAtValue now) = some now := by
  obtain ⟨h1, h2, h3, h4, h5, h6, h7, h8⟩ := h
  show parseIsoZChars (now.isoChars ++ ['Z']) = some now
  rw [PyDateTime.isoChars]
  simp only [List.append_assoc, List.cons_append, List.nil_append]
  unfold parseIsoZChars
  rw [parse4_pad4 (by omega)]
  simp only [Option.bind_eq_bind, Option.some_bind]
  rw [expectChar_cons]
  simp only [Option.bind_eq_bind, Option.some_bind]
  rw [parse2_pad2 (by omega)]
  simp only [Option.bind_eq_bind, Option.some_bind]
  rw [expectChar_cons]
  simp only [Option.bind_eq_bind, Option.some_bind]
  rw [parse2_pad2 (by omega)]
  simp only [Option.bind_eq_bind, Option.some_bind]
  rw [expectChar_cons]
  simp only [Option.bind_eq_bind, Option.some_bind]
  rw [parse2_pad2 (by omega)]
  simp only [Option.bind_eq_bind, Option.some_bind]
  rw [expectChar_cons]
  simp only [Option.bind_eq_bind, Option.some_bind]
  rw [parse2_pad2 (by omega)]
  simp only [Option.bind_eq_bind, Option.some_bind]
  rw [expectChar_cons]
  simp only [Option.bind_eq_bind, Option.some_bind]
  rw [parse2_pad2 (by omega)]
  simp only [Option.bind_eq_bind, Option.some_bind]
  rw [expectChar_cons]
  simp only [Option.bind_eq_bind, Option.some_bind]
  rw [if_pos ⟨h2, h3, h4, h5, h6, h7, h8⟩]

/-- C6: for every acyclic JSON-like input, `build_response` rewrites each
datetime node nested at any depth in `data` (and in `analysis`, if
present) to its ISO-8601 string form, coerces mapping keys to strings,
walks lists element-wise, and passes every other scalar through unchanged:
the response object carries exactly the normalized values, which contain
no datetime node, where normalization is the spec-side relation
`IsNormalized`. -/
theorem build_response_normalizes (data : PyVal) (analysis : Option PyDict)
    (metadata : Option PyDict) (pagination : Option PaginationInfo)
    (now : PyDateTime) :
    lookupStr (buildResponseObj data analysis metadata pagination now) "data"
      = some (convertDatetimes data)
    ∧ IsNormalized data (convertDatetimes data)
    ∧ hasDatetime (convertDatetimes data) = false
    ∧ (∀ es, analysis = some es → pyDictTruthy es = true →
        lookupStr (buildResponseObj data analysis metadata pagination now) "analysis"
          = some (.vdict (convertDict es))
        ∧ IsNormalizedDict es (convertDict es)
        ∧ hasDatetimeDict (convertDict es) = false) := by
  refine ⟨rfl, isNormalized_convert data, hasDatetime_convert data, ?_⟩
  rintro es rfl htruthy
  refine ⟨?_, isNormalizedDict_convert es, hasDatetimeDict_convert es⟩
  simp [buildResponseObj, htruthy, pyDictTruthy_convert, lookupStr]

/-- Witness for C6 at the end-to-end scenario of the spec: a datetime at
`data.x` survives as its exact ISO string, and a supplied analysis mapping
is carried over. -/
theorem build_response_normalizes_witness :
    lookupStr (buildResponseObj
        (.vdict (.cons (.kstr "x") (.vdt ⟨2025, 10, 15, 14, 30, 0⟩) .nil))
        (some (.cons (.kstr "insights") (.vstr "note") .nil)) none none
        ⟨2025, 10, 15, 14, 31, 0⟩) "data"
      = some (.vdict (.cons (.kstr "x") (.vstr "2025-10-15T14:30:00") .nil))
    ∧ lookupStr (buildResponseObj
        (.vdict (.cons (.kstr "x") (.vdt ⟨2025, 10, 15, 14, 30, 0⟩) .nil))
        (some (.cons (.kstr "insights") (.vstr "note") .nil)) none none
        ⟨2025, 10, 15, 14, 31, 0⟩) "analysis"
      = some (.vdict (.cons (.kstr "insights") (.vstr "note") .nil)) :=
  ⟨((build_response_normalizes
      (.vdict (.cons (.kstr "x") (.vdt ⟨2025, 10, 15, 14, 30, 0⟩) .nil))
      (some (.cons (.kstr "insights") (.vstr "note") .nil)) none none
      ⟨2025, 10, 15, 14, 31, 0⟩).1).trans (by decide),
   (((build_response_normalizes
      (.vdict (.cons (.kstr "x") (.vdt ⟨2025, 10, 15, 14, 30, 0⟩) .nil))
      (some (.cons (.kstr "insights") (.vstr "note") .nil)) none none
      ⟨2025, 10, 15, 14, 31, 0⟩).2.2.2 _ rfl rfl).1).trans (by decide)⟩

/-- C8: every successful envelope contains a metadata object with a
`fetched_at` key whose value parses as a valid UTC ISO-8601 timestamp
ending in a literal `Z`, even when the caller supplies no metadata. -/
theorem metadata_fetched_at_valid (data : PyVal) (analysis : Option PyDict)
    (metadata : Option PyDict) (pagination : Option PaginationInfo)
    (now : PyDateTime) (h : ValidPyDateTime now) :
    ∃ m : PyDict,
      lookupStr (buildResponseObj data analysis metadata pagination now) "metadata"
        = some (.vdict m)
      ∧ pyDictLookupStr m "fetched_at" = some (.vstr (fetchedAtValue now))
      ∧ (fetchedAtValue now).data = now.isoChars ++ ['Z']
      ∧ parseIsoZ (fetchedAtValue now) = some now := by
  refine ⟨pyDictSet (convertDict (metadata.getD .nil)) "fetched_at"
      (.vstr (fetchedAtValue now)),
    ?_, pyDictLookupStr_set _ _ _, rfl, parseIsoZ_fetchedAt now h⟩
  cases analysis with
  | none =>
    cases pagination with
    | none => simp [buildResponseObj, lookupStr]
    | some p => simp [buildResponseObj, lookupStr]
  | some es =>
    cases hx : pyDictTruthy es with
    | false =>
      cases pagination with
      | none => simp [buildResponseObj, lookupStr, hx]
      | some p => simp [buildResponseObj, lookupStr, hx]
    | true =>
      cases pagination with
      | none => simp [buildResponseObj, lookupStr, hx, pyDictTruthy_convert]
      | some p => simp [buildResponseObj, lookupStr, hx, pyDictTruthy_convert]

/-- Witness for C8 with no caller-supplied metadata and a concrete clock
reading. -/
theorem metadata_fetched_at_valid_witness :
    ∃ m : PyDict,
      lookupStr (buildResponseObj .vnone none none none ⟨2025, 10, 15, 14, 30, 0⟩)
        "metadata" = some (.vdict m)
      ∧ pyDictLookupStr m "fetched_at"
        = some (.vstr (fetchedAtValue ⟨2025, 10, 15, 14, 30, 0⟩))
      ∧ (fetchedAtValue ⟨2025, 10, 15, 14, 30, 0⟩).data
        = (⟨2025, 10, 15, 14, 30, 0⟩ : PyDateTime).isoChars ++ ['Z']
      ∧ parseIsoZ (fetchedAtValue ⟨2025, 10, 15, 14, 30, 0⟩)
        = some ⟨2025, 10, 15, 14, 30, 0⟩ :=
  metadata_fetched_at_valid .vnone none none none ⟨2025, 10, 15, 14, 30, 0⟩ (by decide)

/-- C9 counterexample: supplying `analysis = some ("insights" mapped to an
empty list)` produces a response whose `analysis` key is present with an
empty insights list, so the key is not present only when a non-empty
insights list was supplied. -/
theorem analysis_empty_insights_counterexample :
    lookupStr (buildResponseObj .vnone
        (some (.cons (.kstr "insights") (.vlist .nil) .nil)) none none
        ⟨2025, 10, 15, 14, 30, 0⟩) "analysis"
      = some (.vdict (.cons (.kstr "insights") (.vlist .nil) .nil)) := by
  decide

/-- C9 amended: the serialized output of `build_response` contains the
`analysis` key iff the supplied analysis mapping is truthy, that is
non-none and non-empty as a mapping; the builder passes the mapping
through normalization unchanged otherwise and never inspects the insights
list. -/
theorem analysis_key_iff_truthy (data : PyVal) (analysis : Option PyDict)
    (metadata : Option PyDict) (pagination : Option PaginationInfo)
    (now : PyDateTime) :
    (lookupStr (buildResponseObj data analysis metadata pagination now)
        "analysis").isSome = true
      ↔ ∃ es, analysis = some es ∧ pyDictTruthy es = true := by
  cases analysis with
  | none =>
    cases pagination with
    | none => simp [buildResponseObj, lookupStr]
    | some p => simp [buildResponseObj, lookupStr]
  | some es =>
    cases hx : pyDictTruthy es with
    | false =>
      cases pagination with
      | none => simp [buildResponseObj, lookupStr, hx]
      | some p => simp [buildResponseObj, lookupStr, hx]
    | true =>
      cases pagination with
      | none => simp [buildResponseObj, lookupStr, hx, pyDictTruthy_convert]
      | some p => simp [buildResponseObj, lookupStr, hx, pyDictTruthy_convert]

/-- Witness for C9 amended at a concrete truthy analysis mapping. -/
theorem analysis_key_iff_truthy_witness :
    (lookupStr (buildResponseObj .vnone
        (some (.cons (.kstr "insights") (.vstr "note") .nil)) none none
        ⟨2025, 10, 15, 14, 30, 0⟩) "analysis").isSome = true :=
  (analysis_key_iff_truthy .vnone
      (some (.cons (.kstr "insights") (.vstr "note") .nil)) none none
      ⟨2025, 10, 15, 14, 30, 0⟩).mpr
    ⟨.cons (.kstr "insights") (.vstr "note") .nil, rfl, rfl⟩

mutual
theorem convertH_fresh (n : Nat) (v : HVal) :
    n ≤ (convertH n v).2 ∧ ∀ a, memAddr a (convertH n v).1 = true → n ≤ a :=
  match v with
  | .hnone => ⟨Nat.le_refl n, by intro a ha; simp [convertH, memAddr] at ha⟩
  | .hbool b => ⟨Nat.le_refl n, by intro a ha; simp [convertH, memAddr] at ha⟩
  | .hint m => ⟨Nat.le_refl n, by intro a ha; simp [convertH, memAddr] at ha⟩
  | .hstr s => ⟨Nat.le_refl n, by intro a ha; simp [convertH, memAddr] at ha⟩
  | .hdt d => ⟨Nat.le_refl n, by intro a ha; simp [convertH, memAddr] at ha⟩
  | .hlist b xs => by
    have ih := convertHList_fresh (n + 1) xs
    constructor
    · show n ≤ (convertHList (n + 1) xs).2
      omega
    · intro a ha
      show n ≤ a
      have ha2 : (a == n || memAddrList a (convertHList (n + 1) xs).1) = true := ha
      rcases Bool.or_eq_true_iff.mp ha2 with h | h
      · have : a = n := by simpa using h
        omega
      · have := ih.2 a h
        omega
  | .hdict b es => by
    have ih := convertHDict_fresh (n + 1) es
    constructor
    · show n ≤ (convertHDict (n + 1) es).2
      omega
    · intro a ha
      show n ≤ a
      have ha2 : (a == n || memAddrDict a (convertHDict (n + 1) es).1) = true := ha
      rcases Bool.or_eq_true_iff.mp ha2 with h | h
      · have : a = n := by simpa using h
        omega
      · have := ih.2 a h
        omega
theorem convertHList_fresh (n : Nat) (xs : HList) :
    n ≤ (convertHList n xs).2 ∧ ∀ a, memAddrList a (convertHList n xs).1 = true → n ≤ a :=
  match xs with
  | .nil => ⟨Nat.le_refl n, by intro a ha; simp [convertHList, memAddrList] at ha⟩
  | .cons v tl => by
    have ihv := convertH_fresh n v
    have iht := convertHList_fresh (convertH n v).2 tl
    constructor
    · show n ≤ (convertHList (convertH n v).2 tl).2
      omega
    · intro a ha
      show n ≤ a
      have ha2 : (memAddr a (convertH n v).1
          || memAddrList a (convertHList (convertH n v).2 tl).1) = true := ha
      rcases Bool.or_eq_true_iff.mp ha2 with h | h
      · exact ihv.2 a h
      · have := iht.2 a h
        omega
theorem convertHDict_fresh (n : Nat) (es : HDict) :
    n ≤ (convertHDict n es).2 ∧ ∀ a, memAddrDict a (convertHDict n es).1 = true → n ≤ a :=
  match es with
  | .nil => ⟨Nat.le_refl n, by intro a ha; simp [convertHDict, memAddrDict] at ha⟩
  | .cons k v tl => by
    have ihv := convertH_fresh n v
    have iht := convertHDict_fresh (convertH n v).2 tl
    constructor
    · show n ≤ (convertHDict (convertH n v).2 tl).2
      omega
    · intro a ha
      show n ≤ a
      have ha2 : (memAddr a (convertH n v).1
          || memAddrDict a (convertHDict (convertH n v).2 tl).1) = true := ha
      rcases Bool.or_eq_true_iff.mp ha2 with h | h
      · exact ihv.2 a h
      · have := iht.2 a h
        omega
end

mutual
theorem mutateAt_frame (a : Nat) (key : String) (v0 : HVal) (w : HVal)
    (h : memAddr a w = false) : mutateAt a key v0 w = w :=
  match w with
  | .hnone => rfl
  | .hbool _ => rfl
  | .hint _ => rfl
  | .hstr _ => rfl
  | .hdt _ => rfl
  | .hlist b xs => by
    have h2 : (a == b || memAddrList a xs) = false := h
    rcases Bool.or_eq_false_iff.mp h2 with ⟨h3, h4⟩
    show HVal.hlist b (mutateAtList a key v0 xs) = .hlist b xs
    rw [mutateAtList_frame a key v0 xs h4]
  | .hdict b es => by
    have h2 : (a == b || memAddrDict a es) = false := h
    rcases Bool.or_eq_false_iff.mp h2 with ⟨h3, h4⟩
    have hba : b ≠ a := by
      intro hba
      subst hba
      simp at h3
    show (if b = a then HVal.hdict b (hdictSet (mutateAtDict a key v0 es) key v0)
          else .hdict b (mutateAtDict a key v0 es)) = .hdict b es
    rw [if_neg hba, mutateAtDict_frame a key v0 es h4]
theorem mutateAtList_frame (a : Nat) (key : String) (v0 : HVal) (xs : HList)
    (h : memAddrList a xs = false) : mutateAtList a key v0 xs = xs :=
  match xs with
  | .nil => rfl
  | .cons v tl => by
    have h2 : (memAddr a v || memAddrList a tl) = false := h
    rcases Bool.or_eq_false_iff.mp h2 with ⟨h3, h4⟩
    show HList.cons (mutateAt a key v0 v) (mutateAtList a key v0 tl) = .cons v tl
    rw [mutateAt_frame a key v0 v h3, mutateAtList_frame a key v0 tl h4]
theorem mutateAtDict_frame (a : Nat) (key : String) (v0 : HVal) (es : HDict)
    (h : memAddrDict a es = false) : mutateAtDict a key v0 es = es :=
  match es with
  | .nil => rfl
  | .cons k v tl => by
    have h2 : (memAddr a v || memAddrDict a tl) = false := h
    rcases Bool.or_eq_false_iff.mp h2 with ⟨h3, h4⟩
    show HDict.cons k (mutateAt a key v0 v) (mutateAtDict a key v0 tl) = .cons k v tl
    rw [mutateAt_frame a key v0 v h3, mutateAtDict_frame a key v0 tl h4]
end

mutual
theorem convertH_erase (n : Nat) (v : HVal) :
    eraseH (convertH n v).1 = convertDatetimes (eraseH v) :=
  match v with
  | .hnone => rfl
  | .hbool _ => rfl
  | .hint _ => rfl
  | .hstr _ => rfl
  | .hdt _ => rfl
  | .hlist b xs => by
    show PyVal.vlist (eraseHList (convertHList (n + 1) xs).1)
        = .vlist (convertList (eraseHList xs))
    rw [convertHList_erase (n + 1) xs]
  | .hdict b es => by
    show PyVal.vdict (eraseHDict (convertHDict (n + 1) es).1)
        = .vdict (convertDict (eraseHDict es))
    rw [convertHDict_erase (n + 1) es]
theorem convertHList_erase (n : Nat) (xs : HList) :
    eraseHList (convertHList n xs).1 = convertList (eraseHList xs) :=
  match xs with
  | .nil => rfl
  | .cons v tl => by
    show PyList.cons (eraseH (convertH n v).1)
        (eraseHList (convertHList (convertH n v).2 tl).1)
      = .cons (convertDatetimes (eraseH v)) (convertList (eraseHList tl))
    rw [convertH_erase n v, convertHList_erase (convertH n v).2 tl]
theorem convertHDict_erase (n : Nat) (es : HDict) :
    eraseHDict (convertHDict n es).1 = convertDict (eraseHDict es) :=
  match es with
  | .nil => rfl
  | .cons k v tl => by
    show PyDict.cons (.kstr k.pyStr) (eraseH (convertH n v).1)
        (eraseHDict (convertHDict (convertH n v).2 tl).1)
      = .cons (.kstr k.pyStr) (convertDatetimes (eraseH v)) (convertDict (eraseHDict tl))
    rw [convertH_erase n v, convertHDict_erase (convertH n v).2 tl]
end

/-- C7: the normalization walk of `build_response` allocates only fresh
container nodes (addresses at or above the allocation watermark), so the
single in-place assignment the builder performs, setting `fetched_at` on
the freshly converted metadata dict, leaves every structure that existed
before the call, in particular the caller's `data`, `analysis` and
`metadata` arguments, deep-equal to its prior value; erasing addresses
shows the instrumented walk is exactly the embedded `_convert_datetimes`. -/
theorem build_response_no_mutation :
    (∀ (metaV w : HVal) (n : Nat) (key : String) (v0 : HVal),
      (∀ a, memAddr a w = true → a < n) →
      ∀ a, memAddr a ((convertH n metaV).1) = true →
        mutateAt a key v0 w = w)
    ∧ (∀ (n : Nat) (v : HVal),
        eraseH (convertH n v).1 = convertDatetimes (eraseH v)) := by
  constructor
  · intro metaV w n key v0 hw a ha
    have hfresh := (convertH_fresh n metaV).2 a ha
    apply mutateAt_frame
    cases hmem : memAddr a w with
    | false => rfl
    | true => exact absurd (hw a hmem) (by omega)
  · exact convertH_erase

/-- Witness for C7: a concrete pre-existing dict is untouched by the
mutation at the fresh address of a converted metadata dict. -/
theorem build_response_no_mutation_witness :
    mutateAt 5 "fetched_at" (.hstr "t")
        (.hdict 3 (.cons (.kstr "k") (.hint 1) .nil))
      = .hdict 3 (.cons (.kstr "k") (.hint 1) .nil) :=
  build_response_no_mutation.1 (.hdict 0 .nil)
    (.hdict 3 (.cons (.kstr "k") (.hint 1) .nil)) 5 "fetched_at" (.hstr "t")
    (by
      intro a ha
      simp [memAddr, memAddrDict] at ha
      omega)
    5 (by decide)

theorem pySlice_nonneg (l : List α) (a b : Int) (ha : 0 ≤ a) (hb : 0 ≤ b) :
    pySlice l a b = (l.drop a.toNat).take (b.toNat - a.toNat) := by
  unfold pySlice pyClampIdx
  rw [if_neg (by omega), if_neg (by omega)]
  have hbt : l.take (min b.toNat l.length) = l.take b.toNat := by
    rw [List.take_eq_take]
    omega
  rw [hbt, List.drop_take]
  by_cases hal : a.toNat ≤ l.length
  · rw [Nat.min_eq_left hal]
  · have h1 : min a.toNat l.length = l.length := by omega
    rw [h1]
    rw [List.drop_eq_nil_of_le (Nat.le_refl _), List.drop_eq_nil_of_le (by omega)]
    simp

theorem pySlice_zero_take (l : List α) (b : Int) (hb : 0 ≤ b) :
    pySlice l 0 b = l.take b.toNat := by
  rw [pySlice_nonneg l 0 b (by omega) hb]
  simp

theorem encode_cursor_ne_empty (page : Nat)
    (filters : Option (List (String × String))) :
    encode_cursor page filters ≠ "" := by
  intro h
  have h2 : (encode_cursor page filters).data = "".data := by rw [h]
  rw [encode_cursor_data] at h2
  cases h2

theorem resolvePage_encode (page : Nat)
    (filters : Option (List (String × String))) :
    resolvePage (some (encode_cursor page filters)) = .ok page := by
  show (if encode_cursor page filters = "" then Except.ok 1
        else pageFromDecode (decode_cursor (encode_cursor page filters)))
      = Except.ok page
  rw [if_neg (encode_cursor_ne_empty page filters), decode_encode_aux]
  rfl

theorem resolvePage_invalid {c : String} (hne : c ≠ "")
    (hdec : decode_cursor c = .error .invalidCursor) :
    resolvePage (some c) = .error "Invalid pagination cursor" := by
  show (if c = "" then Except.ok 1 else pageFromDecode (decode_cursor c))
      = Except.error "Invalid pagination cursor"
  rw [if_neg hne, hdec]
  rfl

theorem queryActivitiesGeneralPaginated_err (fetch : Int → Int → List α)
    (atype : String) (cursor : Option String) (limit : Int) (msg : String)
    (hres : resolvePage cursor = .error msg) :
    queryActivitiesGeneralPaginated fetch atype cursor limit
      = (.errorResponse msg "validation_error" none, []) := by
  unfold queryActivitiesGeneralPaginated
  split
  · rename_i m heq
    rw [heq] at hres
    simp only [Except.error.injEq] at hres
    rw [hres]
  · rename_i cp heq
    rw [heq] at hres
    cases hres

theorem queryActivitiesGeneralPaginated_badlimit (fetch : Int → Int → List α)
    (atype : String) (cursor : Option String) (limit : Int) (p : Nat)
    (hres : resolvePage cursor = .ok p) (hlim : limit < 1 ∨ limit > 50) :
    queryActivitiesGeneralPaginated fetch atype cursor limit
      = (.errorResponse ("Invalid limit: " ++ toString limit
          ++ ". Must be between 1 and 50.") "validation_error" none, []) := by
  unfold queryActivitiesGeneralPaginated
  split
  · rename_i m heq
    rw [heq] at hres
    cases hres
  · rename_i cp heq
    rw [heq] at hres
    simp only [Except.ok.injEq] at hres
    rw [if_pos hlim]

theorem queryActivitiesGeneralPaginated_ok (fetch : Int → Int → List α)
    (atype : String) (cursor : Option String) (limit : Int) (p : Nat)
    (hres : resolvePage cursor = .ok p) (hlim : ¬(limit < 1 ∨ limit > 50)) :
    queryActivitiesGeneralPaginated fetch atype cursor limit
      = (.pageResponse (pySlice (fetch (((p : Int) - 1) * limit) (limit + 1)) 0 limit)
           (build_pagination_info
             (pySlice (fetch (((p : Int) - 1) * limit) (limit + 1)) 0 limit).length
             limit p
             (decide (((fetch (((p : Int) - 1) * limit) (limit + 1)).length : Int) > limit))
             (some (if atype ≠ "" then [("activity_type", atype)] else []))),
         [.getActivities (((p : Int) - 1) * limit) (limit + 1) atype]) := by
  unfold queryActivitiesGeneralPaginated
  split
  · rename_i m heq
    rw [heq] at hres
    cases hres
  · rename_i cp heq
    rw [heq] at hres
    simp only [Except.ok.injEq] at hres
    subst hres
    rw [if_neg hlim]

theorem queryActivitiesPaginated_err (all : List α) (sd ed atype : String)
    (cursor : Option String) (limit : Int) (msg : String)
    (hres : resolvePage cursor = .error msg) :
    queryActivitiesPaginated all sd ed atype cursor limit
      = (.errorResponse msg "validation_error" none, []) := by
  unfold queryActivitiesPaginated
  split
  · rename_i m heq
    rw [heq] at hres
    simp only [Except.error.injEq] at hres
    rw [hres]
  · rename_i cp heq
    rw [heq] at hres
    cases hres

theorem queryActivitiesPaginated_badlimit (all : List α) (sd ed atype : String)
    (cursor : Option String) (limit : Int) (p : Nat)
    (hres : resolvePage cursor = .ok p) (hlim : limit < 1 ∨ limit > 50) :
    queryActivitiesPaginated all sd ed atype cursor limit
      = (.errorResponse ("Invalid limit: " ++ toString limit
          ++ ". Must be between 1 and 50.") "validation_error" none, []) := by
  unfold queryActivitiesPaginated
  split
  · rename_i m heq
    rw [heq] at hres
    cases hres
  · rename_i cp heq
    rw [heq] at hres
    simp only [Except.ok.injEq] at hres
    rw [if_pos hlim]

theorem queryActivitiesPaginated_ok (all : List α) (sd ed atype : String)
    (cursor : Option String) (limit : Int) (p : Nat)
    (hres : resolvePage cursor = .ok p) (hlim : ¬(limit < 1 ∨ limit > 50)) :
    queryActivitiesPaginated all sd ed atype cursor limit
      = (.pageResponse
           (pySlice (pySlice all (((p : Int) - 1) * limit)
               ((((p : Int) - 1) * limit) + (limit + 1))) 0 limit)
           (build_pagination_info
             (pySlice (pySlice all (((p : Int) - 1) * limit)
                 ((((p : Int) - 1) * limit) + (limit + 1))) 0 limit).length
             limit p
             (decide (((pySlice all (((p : Int) - 1) * limit)
                 ((((p : Int) - 1) * limit) + (limit + 1))).length : Int) > limit))
             (some ([("start_date", sd), ("end_date", ed)]
               ++ (if atype ≠ "" then [("activity_type", atype)] else [])))),
         [.getActivitiesByDate sd ed atype]) := by
  unfold queryActivitiesPaginated
  split
  · rename_i m heq
    rw [heq] at hres
    cases hres
  · rename_i cp heq
    rw [heq] at hres
    simp only [Except.ok.injEq] at hres
    subst hres
    rw [if_neg hlim]

theorem queryHealthSummary_err (resolve : String → String)
    (dateRange : String → String → List String) (date sd ed : Option String)
    (cursor : Option String) (limit : Option Int) (tr ts bb : Bool)
    (msg : String) (hres : resolvePage cursor = .error msg) :
    queryHealthSummary resolve dateRange date sd ed cursor limit tr ts bb
      = (.errorResponse msg "validation_error" none, []) := by
  unfold queryHealthSummary
  split
  · rename_i m heq
    rw [heq] at hres
    simp only [Except.error.injEq] at hres
    rw [hres]
  · rename_i cp heq
    rw [heq] at hres
    cases hres

theorem queryHealthSummary_badlimit (resolve : String → String)
    (dateRange : String → String → List String) (date sd ed : Option String)
    (cursor : Option String) (limit : Option Int) (tr ts bb : Bool) (p : Nat)
    (hres : resolvePage cursor = .ok p)
    (hlim : limit.getD 7 < 1 ∨ limit.getD 7 > 30) :
    queryHealthSummary resolve dateRange date sd ed cursor limit tr ts bb
      = (.errorResponse ("Invalid limit: " ++ toString (limit.getD 7)
          ++ ". Must be between 1 and 30.") "validation_error" none, []) := by
  unfold queryHealthSummary
  split
  · rename_i m heq
    rw [heq] at hres
    cases hres
  · rename_i cp heq
    rw [heq] at hres
    simp only [Except.ok.injEq] at hres
    rw [if_pos hlim]

/-- C3: for every paginated query with resolved current page `p`
(defaulting to 1 when no cursor is supplied) and in-range limit, the
orchestrator computes `offset = (p - 1) * limit`, obtains the records via
the fetch capability requesting `limit + 1` records starting at that
offset (the date-range variant slices that window from the upstream
result in memory), sets `has_more` exactly when more than `limit` records
come back, and hands at most `limit` records, the result truncated to
`limit`, to the response builder. -/
theorem paginated_fetch_window (α : Type) (fetch : Int → Int → List α)
    (all_activities : List α) (sd ed atype : String) (p : Nat)
    (fsOpt : Option (List (String × String))) (limit : Int)
    (hp : 1 ≤ p) (hl1 : 1 ≤ limit) (hl2 : limit ≤ 50) :
    resolvePage none = .ok 1
    ∧ queryActivitiesGeneralPaginated fetch atype (some (encode_cursor p fsOpt)) limit
        = (.pageResponse ((fetch (((p : Int) - 1) * limit) (limit + 1)).take limit.toNat)
            (build_pagination_info
              ((fetch (((p : Int) - 1) * limit) (limit + 1)).take limit.toNat).length
              limit p
              (decide (((fetch (((p : Int) - 1) * limit) (limit + 1)).length : Int) > limit))
              (some (if atype ≠ "" then [("activity_type", atype)] else []))),
           [.getActivities (((p : Int) - 1) * limit) (limit + 1) atype])
    ∧ ((fetch (((p : Int) - 1) * limit) (limit + 1)).take limit.toNat).length ≤ limit.toNat
    ∧ queryActivitiesPaginated all_activities sd ed atype (some (encode_cursor p fsOpt)) limit
        = (.pageResponse
            (((all_activities.drop ((((p : Int) - 1) * limit).toNat)).take
                (limit.toNat + 1)).take limit.toNat)
            (build_pagination_info
              (((all_activities.drop ((((p : Int) - 1) * limit).toNat)).take
                  (limit.toNat + 1)).take limit.toNat).length
              limit p
              (decide ((((all_activities.drop ((((p : Int) - 1) * limit).toNat)).take
                  (limit.toNat + 1)).length : Int) > limit))
              (some ([("start_date", sd), ("end_date", ed)]
                ++ (if atype ≠ "" then [("activity_type", atype)] else [])))),
           [.getActivitiesByDate sd ed atype])
    ∧ (((all_activities.drop ((((p : Int) - 1) * limit).toNat)).take
          (limit.toNat + 1)).take limit.toNat).length ≤ limit.toNat := by
  have hlim : ¬(limit < 1 ∨ limit > 50) := by omega
  have hres := resolvePage_encode p fsOpt
  have hoff : (0 : Int) ≤ ((p : Int) - 1) * limit :=
    mul_nonneg (by omega) (by omega)
  have hgen := queryActivitiesGeneralPaginated_ok fetch atype
    (some (encode_cursor p fsOpt)) limit p hres hlim
  rw [pySlice_zero_take _ _ (by omega)] at hgen
  have hwin : pySlice all_activities (((p : Int) - 1) * limit)
      ((((p : Int) - 1) * limit) + (limit + 1))
      = (all_activities.drop ((((p : Int) - 1) * limit).toNat)).take (limit.toNat + 1) := by
    rw [pySlice_nonneg _ _ _ hoff (by omega)]
    congr 1
    omega
  have hdr := queryActivitiesPaginated_ok all_activities sd ed atype
    (some (encode_cursor p fsOpt)) limit p hres hlim
  rw [hwin, pySlice_zero_take _ _ (by omega)] at hdr
  refine ⟨rfl, hgen, ?_, hdr, ?_⟩
  · exact List.length_take_le _ _
  · exact List.length_take_le _ _

/-- Witness for C3: page 1 with limit 10 over an upstream window of 11
records returns 10 records with a next-page cursor, matching the spec
scenario. -/
theorem paginated_fetch_window_witness :
    queryActivitiesGeneralPaginated (fun _ _ => List.replicate 11 ()) ""
        (some (encode_cursor 1 none)) 10
      = (.pageResponse (List.replicate 10 ())
          (build_pagination_info 10 10 1 true (some [])),
         [.getActivities 0 11 ""]) :=
  ((paginated_fetch_window Unit (fun _ _ => List.replicate 11 ()) [] "a" "b" ""
      1 none 10 (by decide) (by decide) (by decide)).2.1).trans (by decide)

/-- C5: whenever a paginated tool call receives a cursor that fails to
decode or a limit outside the allowed per-resource bounds (1..50 for the
activity listings, 1..30 for the day-range health listing), it returns an
error envelope with error type `validation_error` and issues no upstream
call at all in that invocation. -/
theorem validation_fails_fast (α : Type) (fetch : Int → Int → List α)
    (all_activities : List α) (sd ed atype : String)
    (resolve : String → String) (dateRange : String → String → List String)
    (date osd oed : Option String) (tr ts bb : Bool)
    (c : String) (cursor : Option String) (limit : Int)
    (hlimOpt : Option Int) (p : Nat) :
    (decode_cursor c = .error .invalidCursor → c ≠ "" →
      queryActivitiesGeneralPaginated fetch atype (some c) limit
        = (.errorResponse "Invalid pagination cursor" "validation_error" none, [])
      ∧ queryActivitiesPaginated all_activities sd ed atype (some c) limit
        = (.errorResponse "Invalid pagination cursor" "validation_error" none, [])
      ∧ queryHealthSummary resolve dateRange date osd oed (some c) hlimOpt tr ts bb
        = (.errorResponse "Invalid pagination cursor" "validation_error" none, []))
    ∧ (resolvePage cursor = .ok p → limit < 1 ∨ limit > 50 →
      queryActivitiesGeneralPaginated fetch atype cursor limit
        = (.errorResponse ("Invalid limit: " ++ toString limit
            ++ ". Must be between 1 and 50.") "validation_error" none, [])
      ∧ queryActivitiesPaginated all_activities sd ed atype cursor limit
        = (.errorResponse ("Invalid limit: " ++ toString limit
            ++ ". Must be between 1 and 50.") "validation_error" none, []))
    ∧ (resolvePage cursor = .ok p →
        hlimOpt.getD 7 < 1 ∨ hlimOpt.getD 7 > 30 →
      queryHealthSummary resolve dateRange date osd oed cursor hlimOpt tr ts bb
        = (.errorResponse ("Invalid limit: " ++ toString (hlimOpt.getD 7)
            ++ ". Must be between 1 and 30.") "validation_error" none, [])) := by
  refine ⟨?_, ?_, ?_⟩
  · intro hdec hne
    have hres := resolvePage_invalid hne hdec
    exact ⟨queryActivitiesGeneralPaginated_err fetch atype (some c) limit _ hres,
      queryActivitiesPaginated_err all_activities sd ed atype (some c) limit _ hres,
      queryHealthSummary_err resolve dateRange date osd oed (some c) hlimOpt
        tr ts bb _ hres⟩
  · intro hres hlim
    exact ⟨queryActivitiesGeneralPaginated_badlimit fetch atype cursor limit p hres hlim,
      queryActivitiesPaginated_badlimit all_activities sd ed atype cursor limit p hres hlim⟩
  · intro hres hlim
    exact queryHealthSummary_badlimit resolve dateRange date osd oed cursor
      hlimOpt tr ts bb p hres hlim

/-- Witness for C5: the bad-cursor and out-of-range-limit paths at concrete
inputs yield the validation envelope with an empty upstream-call trace. -/
theorem validation_fails_fast_witness :
    (queryActivitiesGeneralPaginated (fun _ _ => ([] : List Unit)) ""
        (some "invalid-cursor-data") 10
      = (.errorResponse "Invalid pagination cursor" "validation_error" none, []))
    ∧ (queryActivitiesGeneralPaginated (fun _ _ => ([] : List Unit)) "" none 99
      = (.errorResponse "Invalid limit: 99. Must be between 1 and 50."
          "validation_error" none, []))
    ∧ (queryHealthSummary id (fun _ _ => []) none none none none (some 31)
        false false false
      = (.errorResponse "Invalid limit: 31. Must be between 1 and 30."
          "validation_error" none, [])) :=
  ⟨((validation_fails_fast Unit (fun _ _ => []) [] "" "" "" id (fun _ _ => [])
      none none none false false false "invalid-cursor-data" none 10 none 1).1
      (by decide) (by decide)).1,
   (((validation_fails_fast Unit (fun _ _ => []) [] "" "" "" id (fun _ _ => [])
      none none none false false false "x" none 99 none 1).2.1 rfl
      (by decide)).1).trans (by decide),
   (((validation_fails_fast Unit (fun _ _ => []) [] "" "" "" id (fun _ _ => [])
      none none none false false false "x" none 10 (some 31) 1).2.2 rfl
      (by decide))).trans (by decide)⟩

/-- C10 counterexample: the four upstream failure categories do not map to
distinct error types; an authentication failure and a rate-limit failure
both surface as error type `garmin_api_error`, and the invalid-cursor
envelope carries no suggestion at all (in particular none about omitting
the cursor). -/
theorem error_taxonomy_counterexample :
    (queryActivitiesHandleError .authError).errType
        = (queryActivitiesHandleError .rateLimit).errType
    ∧ (queryActivitiesHandleError .authError).errType = "garmin_api_error"
    ∧ (queryActivitiesGeneralPaginated (fun _ _ => ([] : List Unit)) ""
        (some "invalid-cursor-data") 10).1
      = .errorResponse "Invalid pagination cursor" "validation_error" none := by
  refine ⟨rfl, rfl, ?_⟩
  decide

/-- C10 amended: `safe_call` does categorize upstream failures into the
four `GarminAPIError` classes with tailored messages (429 to rate limit,
404 to not found, 401/403 to auth, otherwise generic), but the tool
boundary of `query_activities` converts each of them to one envelope with
error type `garmin_api_error`, carrying the category's tailored message
and two fixed generic suggestions; an InvalidCursor failure is reported as
error type `validation_error` with message "Invalid pagination cursor"
and no suggestions. -/
theorem error_taxonomy_actual (mn : String) (e : GarminError) (s : String)
    (α : Type) (fetch : Int → Int → List α) (atype hc : String) (limit : Int) :
    (queryActivitiesHandleError e).errType = "garmin_api_error"
    ∧ (queryActivitiesHandleError e).message = e.message
    ∧ (queryActivitiesHandleError e).suggestions
        = some ["Check your Garmin Connect credentials",
                "Verify your internet connection"]
    ∧ safe_call (α := Unit) mn (.inl (.garthHTTPError "HTTP 429 Too Many Requests"))
        = .error .rateLimit
    ∧ safe_call (α := Unit) mn (.inl (.garthHTTPError "HTTP 404 Not Found"))
        = .error (.notFound "Resource")
    ∧ safe_call (α := Unit) mn (.inl (.garthHTTPError "HTTP 401 Unauthorized"))
        = .error .authError
    ∧ safe_call (α := Unit) mn (.inl .connectAuthError) = .error .authError
    ∧ safe_call (α := Unit) mn (.inl (.otherExc s))
        = .error (.apiError ("Unexpected error: " ++ s))
    ∧ (decode_cursor hc = .error .invalidCursor → hc ≠ "" →
        queryActivitiesGeneralPaginated fetch atype (some hc) limit
          = (.errorResponse "Invalid pagination cursor" "validation_error" none, [])) := by
  refine ⟨rfl, rfl, rfl, rfl, rfl, rfl, rfl, rfl, ?_⟩
  intro hdec hne
  exact queryActivitiesGeneralPaginated_err fetch atype (some hc) limit _
    (resolvePage_invalid hne hdec)

/-- Witness for C10 amended at the concrete invalid cursor of the
repository test. -/
theorem error_taxonomy_actual_witness :
    queryActivitiesGeneralPaginated (fun _ _ => ([] : List Unit)) "running"
        (some "invalid-cursor-data") 10
      = (.errorResponse "Invalid pagination cursor" "validation_error" none, []) :=
  (error_taxonomy_actual "get_activities" .rateLimit "boom" Unit (fun _ _ => [])
      "running" "invalid-cursor-data" 10).2.2.2.2.2.2.2.2 (by decide) (by decide)

end GarminMcp
